import Mathlib

set_option maxRecDepth 100000

/-!
Verification of the schema-diff core of the Query repository
(`src-tauri/src/utils/schema_diff.rs` together with the data model in
`src-tauri/src/models/schema.rs`).

The Rust comparator iterates over a `HashSet` holding the union of the
identity keys of the two input collections.  The iteration order of that
set is unspecified, so every comparator here takes the enumeration order
of each key union as an explicit parameter (`DiffOrders`); a `ValidOrders`
hypothesis states that each supplied order enumerates exactly the
corresponding key union, each key once, which is precisely what a
`HashSet` iteration yields.  The `unreachable!` arms of the Rust code are
modelled by `Option`: a comparator returns `none` exactly when the Rust
code would panic.  The wall-clock timestamp interpolated into the
migration-script header is likewise passed in as a parameter.
-/

namespace SchemaDiff

/-- Record `EnhancedColumnInfo` from `models/schema.rs`. -/
structure EnhancedColumnInfo where
  column_name : String
  data_type : String
  is_nullable : String
  is_primary_key : Bool
  column_default : Option String
  character_maximum_length : Option Int
  numeric_precision : Option Int
  numeric_scale : Option Int
  ordinal_position : Int
deriving Repr, DecidableEq

/-- Record `IndexInfo` from `models/schema.rs`. -/
structure IndexInfo where
  index_name : String
  table_name : String
  columns : List String
  is_unique : Bool
  is_primary : Bool
  definition : String
deriving Repr, DecidableEq

/-- Record `ForeignKeyInfo` from `models/schema.rs`. -/
structure ForeignKeyInfo where
  constraint_name : String
  table_name : String
  column_name : String
  foreign_table_name : String
  foreign_column_name : String
deriving Repr, DecidableEq

/-- Record `ViewInfo` from `models/schema.rs`. -/
structure ViewInfo where
  view_name : String
  definition : String
deriving Repr, DecidableEq

/-- Record `RoutineInfo` from `models/schema.rs`. -/
structure RoutineInfo where
  routine_name : String
  routine_type : String
  definition : Option String
  return_type : Option String
deriving Repr, DecidableEq

/-- Record `EnhancedTableInfo` from `models/schema.rs`. -/
structure EnhancedTableInfo where
  table_name : String
  columns : List EnhancedColumnInfo
  foreign_keys : List ForeignKeyInfo
  indexes : List IndexInfo
deriving Repr, DecidableEq

/-- Record `EnhancedDatabaseSchema` from `models/schema.rs`. -/
structure EnhancedDatabaseSchema where
  tables : List EnhancedTableInfo
  views : List ViewInfo
  routines : List RoutineInfo
deriving Repr, DecidableEq

/-- Enum `DiffStatus` from `schema_diff.rs`. -/
inductive DiffStatus where
  | Identical
  | Modified
  | Added
  | Removed
deriving Repr, DecidableEq

/-- Record `ColumnChange` from `schema_diff.rs`. -/
structure ColumnChange where
  column_name : String
  status : DiffStatus
  source_definition : Option EnhancedColumnInfo
  target_definition : Option EnhancedColumnInfo
  changes : List String
deriving Repr, DecidableEq

/-- Record `IndexChange` from `schema_diff.rs`. -/
structure IndexChange where
  index_name : String
  status : DiffStatus
  source_definition : Option IndexInfo
  target_definition : Option IndexInfo
deriving Repr, DecidableEq

/-- Record `ForeignKeyChange` from `schema_diff.rs`. -/
structure ForeignKeyChange where
  constraint_name : String
  status : DiffStatus
  source_definition : Option ForeignKeyInfo
  target_definition : Option ForeignKeyInfo
deriving Repr, DecidableEq

/-- Record `TableDifference` from `schema_diff.rs`. -/
structure TableDifference where
  table_name : String
  status : DiffStatus
  column_changes : List ColumnChange
  index_changes : List IndexChange
  fk_changes : List ForeignKeyChange
deriving Repr, DecidableEq

/-- Record `ViewChange` from `schema_diff.rs`. -/
structure ViewChange where
  view_name : String
  status : DiffStatus
  source_definition : Option String
  target_definition : Option String
  definition_changed : Bool
deriving Repr, DecidableEq

/-- Record `RoutineChange` from `schema_diff.rs`. -/
structure RoutineChange where
  routine_name : String
  status : DiffStatus
  source_definition : Option RoutineInfo
  target_definition : Option RoutineInfo
  definition_changed : Bool
deriving Repr, DecidableEq

/-- Enum `WarningSeverity` from `schema_diff.rs`. -/
inductive WarningSeverity where
  | High
  | Medium
  | Low
deriving Repr, DecidableEq

/-- Record `ComparisonWarning` from `schema_diff.rs`. -/
structure ComparisonWarning where
  severity : WarningSeverity
  warning_type : String
  message : String
  affected_object : String
  details : Option String
deriving Repr, DecidableEq

/-- Record `ComparisonSummary` from `schema_diff.rs` (usize counters become `Nat`). -/
structure ComparisonSummary where
  tables_modified : Nat
  tables_added : Nat
  tables_removed : Nat
  indexes_missing : Nat
  views_changed : Nat
  routines_changed : Nat
deriving Repr, DecidableEq

/-- Record `SchemaComparison` from `schema_diff.rs`. -/
structure SchemaComparison where
  source_connection : String
  target_connection : String
  summary : ComparisonSummary
  table_differences : List TableDifference
  view_differences : List ViewChange
  routine_differences : List RoutineChange
  warnings : List ComparisonWarning
deriving Repr, DecidableEq

/-- Lookup in the `HashMap` the Rust code builds by collecting `(key x, x)`
pairs from a slice: on duplicate keys later insertions overwrite earlier
ones, so the lookup returns the last element with the given key. -/
def mapLookup {α : Type} (key : α → String) (l : List α) (k : String) : Option α :=
  l.reverse.find? (fun x => key x == k)

/-- The union of the identity keys of two collections, as a duplicate-free
list.  The Rust code holds this union in a `HashSet`; an iteration of that
set is any permutation of this list. -/
def unionKeys {α : Type} (key : α → String) (src tgt : List α) : List String :=
  ((src.map key) ++ (tgt.map key)).dedup

/-- Run a per-key classifier over an enumeration of the key union.
`none` propagates: it models the `unreachable!` panic of the Rust loops. -/
def traverseOpt {β : Type} (f : String → Option β) : List String → Option (List β)
  | [] => some []
  | k :: ks =>
    match f k, traverseOpt f ks with
    | some b, some bs => some (b :: bs)
    | _, _ => none

/-- Returns `true` when `pat` is a prefix of `s` (first argument the pattern). -/
def charListPrefix : List Char → List Char → Bool
  | [], _ => true
  | _ :: _, [] => false
  | a :: as, b :: bs => a == b && charListPrefix as bs

/-- Returns `true` when `pat` occurs as a contiguous run inside `s`. -/
def charListContains (pat : List Char) : List Char → Bool
  | [] => pat.isEmpty
  | c :: rest => charListPrefix pat (c :: rest) || charListContains pat rest

/-- Rust `str::starts_with` on Lean strings. -/
def strStartsWith (s pre : String) : Bool :=
  charListPrefix pre.data s.data

/-- Returns `true` when `pat` occurs as a contiguous substring of `s`. -/
def containsSubstr (s pat : String) : Bool :=
  charListContains pat.data s.data

/-- Rust `str::trim` on Lean strings: strip leading and trailing
whitespace (the four ASCII whitespace characters `Char.isWhitespace`
recognises; the further Unicode white-space code points Rust also strips
do not occur in this development). -/
def strTrim (s : String) : String :=
  ⟨((s.data.dropWhile Char.isWhitespace).reverse.dropWhile Char.isWhitespace).reverse⟩

/-- The character escapes of Rust's `Debug` formatting of a string: `\`
becomes `\\` and `"` becomes `\"` (control-character escapes are not
modelled; no control characters occur in the strings of this
development). -/
def rustEscapeChars : List Char → List Char
  | [] => []
  | c :: rest =>
    (if c = '\\' then ['\\', '\\'] else if c = '"' then ['\\', '"'] else [c]) ++
      rustEscapeChars rest

/-- Rust `Debug` rendering of a `String` (as produced by `{:?}`). -/
def rustDebugStr (s : String) : String :=
  "\"" ++ String.mk (rustEscapeChars s.data) ++ "\""

/-- Rust `Debug` rendering of an `Option<String>`. -/
def rustDebugOptStr : Option String → String
  | none => "None"
  | some s => "Some(" ++ rustDebugStr s ++ ")"

/-- Rust `Debug` rendering of an `Option<i32>`. -/
def rustDebugOptInt : Option Int → String
  | none => "None"
  | some n => "Some(" ++ toString n ++ ")"

/-- The body of the `compare_columns` loop for one column name: the two
map lookups and the four-way match from `schema_diff.rs` lines 249-300.
`none` is the `(None, None) => unreachable!()` arm. -/
def columnChangeAt (source_cols target_cols : List EnhancedColumnInfo)
    (col_name : String) : Option ColumnChange :=
  let source_col := mapLookup (fun c => c.column_name) source_cols col_name
  let target_col := mapLookup (fun c => c.column_name) target_cols col_name
  match source_col, target_col with
  | some src, some tgt =>
    let details :=
      (if src.data_type ≠ tgt.data_type then
        ["type: " ++ tgt.data_type ++ " → " ++ src.data_type] else []) ++
      (if src.is_nullable ≠ tgt.is_nullable then
        ["nullable: " ++ tgt.is_nullable ++ " → " ++ src.is_nullable] else []) ++
      (if src.column_default ≠ tgt.column_default then
        ["default: " ++ rustDebugOptStr tgt.column_default ++ " → " ++
          rustDebugOptStr src.column_default] else []) ++
      (if src.character_maximum_length ≠ tgt.character_maximum_length then
        ["max_length: " ++ rustDebugOptInt tgt.character_maximum_length ++ " → " ++
          rustDebugOptInt src.character_maximum_length] else [])
    some { column_name := col_name
           status := if details.isEmpty then DiffStatus.Identical else DiffStatus.Modified
           source_definition := some src
           target_definition := some tgt
           changes := details }
  | some src, none =>
    some { column_name := col_name, status := DiffStatus.Added
           source_definition := some src, target_definition := none, changes := [] }
  | none, some tgt =>
    some { column_name := col_name, status := DiffStatus.Removed
           source_definition := none, target_definition := some tgt, changes := [] }
  | none, none => none

/-- Function `compare_columns`, with the `HashSet` iteration order made explicit. -/
def compare_columnsWith (order : List String)
    (source_cols target_cols : List EnhancedColumnInfo) : Option (List ColumnChange) :=
  traverseOpt (columnChangeAt source_cols target_cols) order

/-- The body of the `compare_indexes` loop for one index name
(`schema_diff.rs` lines 323-350). -/
def indexChangeAt (source_indexes target_indexes : List IndexInfo)
    (index_name : String) : Option IndexChange :=
  let source_idx := mapLookup (fun i => i.index_name) source_indexes index_name
  let target_idx := mapLookup (fun i => i.index_name) target_indexes index_name
  match source_idx, target_idx with
  | some src, some tgt =>
    some { index_name := index_name
           status :=
             if src.definition ≠ tgt.definition ∨ src.columns ≠ tgt.columns ∨
                src.is_unique ≠ tgt.is_unique
             then DiffStatus.Modified else DiffStatus.Identical
           source_definition := some src
           target_definition := some tgt }
  | some src, none =>
    some { index_name := index_name, status := DiffStatus.Added
           source_definition := some src, target_definition := none }
  | none, some tgt =>
    some { index_name := index_name, status := DiffStatus.Removed
           source_definition := none, target_definition := some tgt }
  | none, none => none

/-- Function `compare_indexes`, with the iteration order made explicit. -/
def compare_indexesWith (order : List String)
    (source_indexes target_indexes : List IndexInfo) : Option (List IndexChange) :=
  traverseOpt (indexChangeAt source_indexes target_indexes) order

/-- The body of the `compare_foreign_keys` loop for one constraint name
(`schema_diff.rs` lines 376-402). -/
def foreignKeyChangeAt (source_fks target_fks : List ForeignKeyInfo)
    (fk_name : String) : Option ForeignKeyChange :=
  let source_fk := mapLookup (fun f => f.constraint_name) source_fks fk_name
  let target_fk := mapLookup (fun f => f.constraint_name) target_fks fk_name
  match source_fk, target_fk with
  | some src, some tgt =>
    some { constraint_name := fk_name
           status :=
             if src.column_name ≠ tgt.column_name ∨
                src.foreign_table_name ≠ tgt.foreign_table_name ∨
                src.foreign_column_name ≠ tgt.foreign_column_name
             then DiffStatus.Modified else DiffStatus.Identical
           source_definition := some src
           target_definition := some tgt }
  | some src, none =>
    some { constraint_name := fk_name, status := DiffStatus.Added
           source_definition := some src, target_definition := none }
  | none, some tgt =>
    some { constraint_name := fk_name, status := DiffStatus.Removed
           source_definition := none, target_definition := some tgt }
  | none, none => none

/-- Function `compare_foreign_keys`, with the iteration order made explicit. -/
def compare_foreign_keysWith (order : List String)
    (source_fks target_fks : List ForeignKeyInfo) : Option (List ForeignKeyChange) :=
  traverseOpt (foreignKeyChangeAt source_fks target_fks) order

/-- The body of the `compare_views` loop for one view name
(`schema_diff.rs` lines 425-453). -/
def viewChangeAt (source_views target_views : List ViewInfo)
    (view_name : String) : Option ViewChange :=
  let source_view := mapLookup (fun v => v.view_name) source_views view_name
  let target_view := mapLookup (fun v => v.view_name) target_views view_name
  match source_view, target_view with
  | some src, some tgt =>
    let changed := strTrim src.definition ≠ strTrim tgt.definition
    some { view_name := view_name
           status := if changed then DiffStatus.Modified else DiffStatus.Identical
           source_definition := some src.definition
           target_definition := some tgt.definition
           definition_changed := changed }
  | some src, none =>
    some { view_name := view_name, status := DiffStatus.Added
           source_definition := some src.definition, target_definition := none
           definition_changed := false }
  | none, some tgt =>
    some { view_name := view_name, status := DiffStatus.Removed
           source_definition := none, target_definition := some tgt.definition
           definition_changed := false }
  | none, none => none

/-- Function `compare_views`, with the iteration order made explicit. -/
def compare_viewsWith (order : List String)
    (source_views target_views : List ViewInfo) : Option (List ViewChange) :=
  traverseOpt (viewChangeAt source_views target_views) order

/-- The body of the `compare_routines` loop for one routine name
(`schema_diff.rs` lines 479-509). -/
def routineChangeAt (source_routines target_routines : List RoutineInfo)
    (routine_name : String) : Option RoutineChange :=
  let source_routine := mapLookup (fun r => r.routine_name) source_routines routine_name
  let target_routine := mapLookup (fun r => r.routine_name) target_routines routine_name
  match source_routine, target_routine with
  | some src, some tgt =>
    let changed := src.definition ≠ tgt.definition ∨ src.routine_type ≠ tgt.routine_type ∨
      src.return_type ≠ tgt.return_type
    some { routine_name := routine_name
           status := if changed then DiffStatus.Modified else DiffStatus.Identical
           source_definition := some src
           target_definition := some tgt
           definition_changed := decide changed }
  | some src, none =>
    some { routine_name := routine_name, status := DiffStatus.Added
           source_definition := some src, target_definition := none
           definition_changed := false }
  | none, some tgt =>
    some { routine_name := routine_name, status := DiffStatus.Removed
           source_definition := none, target_definition := some tgt
           definition_changed := false }
  | none, none => none

/-- Function `compare_routines`, with the iteration order made explicit. -/
def compare_routinesWith (order : List String)
    (source_routines target_routines : List RoutineInfo) : Option (List RoutineChange) :=
  traverseOpt (routineChangeAt source_routines target_routines) order

/-- The enumeration orders of all the key unions the comparator iterates:
one order for the table-name union, per-table orders for the column,
index, and foreign-key unions, and orders for the view and routine
unions. -/
structure DiffOrders where
  tableOrder : List String
  colOrder : String → List String
  idxOrder : String → List String
  fkOrder : String → List String
  viewOrder : List String
  routineOrder : List String

/-- The columns of the table named `t`, `[]` when no such table exists. -/
def colsOfTable (tables : List EnhancedTableInfo) (t : String) : List EnhancedColumnInfo :=
  ((mapLookup (fun x => x.table_name) tables t).map (fun x => x.columns)).getD []

/-- The indexes of the table named `t`, `[]` when no such table exists. -/
def idxsOfTable (tables : List EnhancedTableInfo) (t : String) : List IndexInfo :=
  ((mapLookup (fun x => x.table_name) tables t).map (fun x => x.indexes)).getD []

/-- The foreign keys of the table named `t`, `[]` when no such table exists. -/
def fksOfTable (tables : List EnhancedTableInfo) (t : String) : List ForeignKeyInfo :=
  ((mapLookup (fun x => x.table_name) tables t).map (fun x => x.foreign_keys)).getD []

/-- The body of the `compare_tables` loop for one table name
(`schema_diff.rs` lines 181-223).  In the matched branch the three inner
comparators run with their own iteration orders. -/
def tableDiffAt (ords : DiffOrders)
    (source_tables target_tables : List EnhancedTableInfo)
    (table_name : String) : Option TableDifference :=
  let source_table := mapLookup (fun t => t.table_name) source_tables table_name
  let target_table := mapLookup (fun t => t.table_name) target_tables table_name
  match source_table, target_table with
  | some src, some tgt =>
    match compare_columnsWith (ords.colOrder table_name) src.columns tgt.columns,
        compare_indexesWith (ords.idxOrder table_name) src.indexes tgt.indexes,
        compare_foreign_keysWith (ords.fkOrder table_name) src.foreign_keys tgt.foreign_keys with
    | some col_changes, some idx_changes, some fk_changes =>
      let is_modified := !col_changes.isEmpty || !idx_changes.isEmpty || !fk_changes.isEmpty
      some { table_name := table_name
             status := if is_modified then DiffStatus.Modified else DiffStatus.Identical
             column_changes := col_changes
             index_changes := idx_changes
             fk_changes := fk_changes }
    | _, _, _ => none
  | some _, none =>
    some { table_name := table_name, status := DiffStatus.Added
           column_changes := [], index_changes := [], fk_changes := [] }
  | none, some _ =>
    some { table_name := table_name, status := DiffStatus.Removed
           column_changes := [], index_changes := [], fk_changes := [] }
  | none, none => none

/-- Function `compare_tables`, with all iteration orders made explicit. -/
def compare_tablesWith (ords : DiffOrders)
    (source_tables target_tables : List EnhancedTableInfo) : Option (List TableDifference) :=
  traverseOpt (tableDiffAt ords source_tables target_tables) ords.tableOrder

/-- The `High`/`data_loss` warning for a dropped table
(`generate_warnings`, lines 524-532). -/
def droppedTableWarning (table_name : String) : ComparisonWarning :=
  { severity := WarningSeverity.High
    warning_type := "data_loss"
    message := "Dropping table '" ++ table_name ++ "' will result in data loss"
    affected_object := table_name
    details := some "Consider backing up data before proceeding" }

/-- The `High`/`data_loss` warning for a dropped column
(`generate_warnings`, lines 536-547). -/
def droppedColumnWarning (table_name col_name : String) : ComparisonWarning :=
  { severity := WarningSeverity.High
    warning_type := "data_loss"
    message := "Dropping column '" ++ table_name ++ "." ++ col_name ++
      "' will result in data loss"
    affected_object := table_name ++ "." ++ col_name
    details := some "Consider backing up column data first" }

/-- The `Medium`/`breaking_change` warning for a column type change
(`generate_warnings`, lines 550-563). -/
def typeChangeWarning (table_name col_name : String) : ComparisonWarning :=
  { severity := WarningSeverity.Medium
    warning_type := "breaking_change"
    message := "Changing data type for column '" ++ table_name ++ "." ++ col_name ++
      "' may cause issues"
    affected_object := table_name ++ "." ++ col_name
    details := some "Ensure data is compatible with new type" }

/-- The warnings the `generate_warnings` column loop emits for one column
change record. -/
def columnWarnings (table_name : String) (cc : ColumnChange) : List ComparisonWarning :=
  (if cc.status = DiffStatus.Removed then
    [droppedColumnWarning table_name cc.column_name] else []) ++
  (if cc.status = DiffStatus.Modified then
    (if cc.changes.any (fun c => strStartsWith c "type:") then
      [typeChangeWarning table_name cc.column_name] else [])
   else [])

/-- The warnings the `generate_warnings` outer loop emits for one table
difference. -/
def tableWarnings (td : TableDifference) : List ComparisonWarning :=
  (if td.status = DiffStatus.Removed then [droppedTableWarning td.table_name] else []) ++
  td.column_changes.flatMap (columnWarnings td.table_name)

/-- Function `generate_warnings` (`schema_diff.rs` lines 515-568).  The view and
routine difference arguments are received and ignored, exactly as in the
Rust signature. -/
def generate_warnings (table_diffs : List TableDifference)
    (_view_diffs : List ViewChange) (_routine_diffs : List RoutineChange) :
    List ComparisonWarning :=
  table_diffs.flatMap tableWarnings

/-- Rust `matches!(status, DiffStatus::Modified)`. -/
def isModified : DiffStatus → Bool
  | DiffStatus.Modified => true
  | _ => false

/-- Rust `matches!(status, DiffStatus::Added)`. -/
def isAdded : DiffStatus → Bool
  | DiffStatus.Added => true
  | _ => false

/-- Rust `matches!(status, DiffStatus::Removed)`. -/
def isRemoved : DiffStatus → Bool
  | DiffStatus.Removed => true
  | _ => false

/-- Rust `matches!(status, DiffStatus::Identical)`. -/
def isIdentical : DiffStatus → Bool
  | DiffStatus.Identical => true
  | _ => false

/-- Rust `matches!(status, DiffStatus::Added | DiffStatus::Removed)`. -/
def isAddedOrRemoved : DiffStatus → Bool
  | DiffStatus.Added => true
  | DiffStatus.Removed => true
  | _ => false

/-- Rust `matches!(status, DiffStatus::Modified | DiffStatus::Added | DiffStatus::Removed)`. -/
def isChanged : DiffStatus → Bool
  | DiffStatus.Identical => false
  | _ => true

/-- Function `compare_schemas` (`schema_diff.rs` lines 108-156), with all
iteration orders made explicit. -/
def compare_schemasWith (ords : DiffOrders)
    (source target : EnhancedDatabaseSchema)
    (source_connection target_connection : String) : Option SchemaComparison :=
  match compare_tablesWith ords source.tables target.tables,
      compare_viewsWith ords.viewOrder source.views target.views,
      compare_routinesWith ords.routineOrder source.routines target.routines with
  | some table_differences, some view_differences, some routine_differences =>
    let warnings := generate_warnings table_differences view_differences routine_differences
    some { source_connection := source_connection
           target_connection := target_connection
           summary :=
             { tables_modified := (table_differences.filter (fun t => isModified t.status)).length
               tables_added := (table_differences.filter (fun t => isAdded t.status)).length
               tables_removed := (table_differences.filter (fun t => isRemoved t.status)).length
               indexes_missing :=
                 ((table_differences.flatMap (fun t => t.index_changes)).filter
                   (fun i => isAddedOrRemoved i.status)).length
               views_changed := (view_differences.filter (fun v => isChanged v.status)).length
               routines_changed :=
                 (routine_differences.filter (fun r => isChanged r.status)).length }
           table_differences := table_differences
           view_differences := view_differences
           routine_differences := routine_differences
           warnings := warnings }
  | _, _, _ => none

/-- The supplied orders enumerate exactly the key unions the Rust
`HashSet`s hold: each order is a permutation of the duplicate-free union
of the corresponding identity keys. -/
def ValidOrders (ords : DiffOrders) (source target : EnhancedDatabaseSchema) : Prop :=
  ords.tableOrder.Perm (unionKeys (fun t => t.table_name) source.tables target.tables) ∧
  (∀ t ∈ ords.tableOrder,
    (ords.colOrder t).Perm (unionKeys (fun c => c.column_name)
      (colsOfTable source.tables t) (colsOfTable target.tables t)) ∧
    (ords.idxOrder t).Perm (unionKeys (fun i => i.index_name)
      (idxsOfTable source.tables t) (idxsOfTable target.tables t)) ∧
    (ords.fkOrder t).Perm (unionKeys (fun f => f.constraint_name)
      (fksOfTable source.tables t) (fksOfTable target.tables t))) ∧
  ords.viewOrder.Perm (unionKeys (fun v => v.view_name) source.views target.views) ∧
  ords.routineOrder.Perm (unionKeys (fun r => r.routine_name) source.routines target.routines)

/-- One concrete choice of valid orders: the canonical duplicate-free
unions themselves. -/
def canonicalOrders (source target : EnhancedDatabaseSchema) : DiffOrders :=
  { tableOrder := unionKeys (fun t => t.table_name) source.tables target.tables
    colOrder := fun t => unionKeys (fun c => c.column_name)
      (colsOfTable source.tables t) (colsOfTable target.tables t)
    idxOrder := fun t => unionKeys (fun i => i.index_name)
      (idxsOfTable source.tables t) (idxsOfTable target.tables t)
    fkOrder := fun t => unionKeys (fun f => f.constraint_name)
      (fksOfTable source.tables t) (fksOfTable target.tables t)
    viewOrder := unionKeys (fun v => v.view_name) source.views target.views
    routineOrder := unionKeys (fun r => r.routine_name) source.routines target.routines }

/-- The `NULL`/`NOT NULL` keyword chosen from a column's `is_nullable`
field (`generate_migration_script`, lines 616-620 and 790-794). -/
def nullableSql (d : EnhancedColumnInfo) : String :=
  if d.is_nullable = "YES" then "NULL" else "NOT NULL"

/-- The ` DEFAULT <expr>` fragment of a column clause
(`generate_migration_script`, lines 621-625 and 795-799). -/
def defaultSql (d : EnhancedColumnInfo) : String :=
  match d.column_default with
  | some v => " DEFAULT " ++ v
  | none => ""

/-- The SQL the modified-tables section emits for one column change
(`generate_migration_script`, lines 612-692). -/
def columnSql (table_name : String) (cc : ColumnChange) : String :=
  match cc.status with
  | DiffStatus.Added =>
    match cc.target_definition with
    | some target_def =>
      "ALTER TABLE " ++ table_name ++ " ADD COLUMN " ++ cc.column_name ++ " " ++
        target_def.data_type ++ " " ++ nullableSql target_def ++ defaultSql target_def ++ ";\n"
    | none => ""
  | DiffStatus.Removed =>
    "-- WARNING: Dropping column will cause data loss!\nALTER TABLE " ++ table_name ++
      " DROP COLUMN " ++ cc.column_name ++ ";\n"
  | DiffStatus.Modified =>
    match cc.target_definition with
    | some target_def =>
      (if cc.changes.any (fun c => strStartsWith c "type:") then
        "ALTER TABLE " ++ table_name ++ " ALTER COLUMN " ++ cc.column_name ++ " TYPE " ++
          target_def.data_type ++ ";\n"
       else "") ++
      (if cc.changes.any (fun c => strStartsWith c "nullable:") then
        "ALTER TABLE " ++ table_name ++ " ALTER COLUMN " ++ cc.column_name ++ " " ++
          (if target_def.is_nullable = "YES" then "DROP NOT NULL" else "SET NOT NULL") ++ ";\n"
       else "") ++
      (if cc.changes.any (fun c => strStartsWith c "default:") then
        match target_def.column_default with
        | some default_val =>
          "ALTER TABLE " ++ table_name ++ " ALTER COLUMN " ++ cc.column_name ++
            " SET DEFAULT " ++ default_val ++ ";\n"
        | none =>
          "ALTER TABLE " ++ table_name ++ " ALTER COLUMN " ++ cc.column_name ++
            " DROP DEFAULT;\n"
       else "")
    | none => ""
  | DiffStatus.Identical => ""

/-- The SQL the modified-tables section emits for one index change
(`generate_migration_script`, lines 695-714). -/
def indexSql (ic : IndexChange) : String :=
  match ic.status with
  | DiffStatus.Added =>
    match ic.target_definition with
    | some idx_info => idx_info.definition ++ ";\n"
    | none => ""
  | DiffStatus.Removed => "DROP INDEX IF EXISTS " ++ ic.index_name ++ ";\n"
  | DiffStatus.Modified =>
    "DROP INDEX IF EXISTS " ++ ic.index_name ++ ";\n" ++
      (match ic.target_definition with
       | some idx_info => idx_info.definition ++ ";\n"
       | none => "")
  | DiffStatus.Identical => ""

/-- The `ALTER TABLE ... ADD CONSTRAINT ... FOREIGN KEY` statement built
from a constraint name and a target foreign-key definition. -/
def fkAddSql (constraint_name : String) (target_fk : ForeignKeyInfo) : String :=
  "ALTER TABLE " ++ target_fk.table_name ++ " ADD CONSTRAINT " ++ constraint_name ++
    " FOREIGN KEY (" ++ target_fk.column_name ++ ") REFERENCES " ++
    target_fk.foreign_table_name ++ " (" ++ target_fk.foreign_column_name ++ ");\n"

/-- The SQL the modified-tables section emits for one foreign-key change
(`generate_migration_script`, lines 717-760). -/
def fkSql (fc : ForeignKeyChange) : String :=
  match fc.status with
  | DiffStatus.Added =>
    match fc.target_definition with
    | some target_fk => fkAddSql fc.constraint_name target_fk
    | none => ""
  | DiffStatus.Removed =>
    match fc.source_definition with
    | some source_fk =>
      "ALTER TABLE " ++ source_fk.table_name ++ " DROP CONSTRAINT IF EXISTS " ++
        fc.constraint_name ++ ";\n"
    | none => ""
  | DiffStatus.Modified =>
    (match fc.source_definition with
     | some source_fk =>
       "ALTER TABLE " ++ source_fk.table_name ++ " DROP CONSTRAINT IF EXISTS " ++
         fc.constraint_name ++ ";\n"
     | none => "") ++
    (match fc.target_definition with
     | some target_fk => fkAddSql fc.constraint_name target_fk
     | none => "")
  | DiffStatus.Identical => ""

/-- The modified-tables section body for one table
(`generate_migration_script`, lines 608-763). -/
def modifiedTableSql (td : TableDifference) : String :=
  "-- Modify table: " ++ td.table_name ++ "\n" ++
  String.join (td.column_changes.map (columnSql td.table_name)) ++
  String.join (td.index_changes.map indexSql) ++
  String.join (td.fk_changes.map fkSql) ++
  "\n"

/-- The column clause the `CREATE TABLE` of a new table gets from one
column change record; `none` (skip) when the record carries no target
definition (`generate_migration_script`, lines 785-813). -/
def createColumnClause (col : ColumnChange) : Option String :=
  match col.target_definition with
  | some target_def =>
    some ("  " ++ col.column_name ++ " " ++ target_def.data_type ++ " " ++
      nullableSql target_def ++ defaultSql target_def ++
      (if target_def.is_primary_key then " PRIMARY KEY" else ""))
  | none => none

/-- The new-tables section body for one table
(`generate_migration_script`, lines 781-840). -/
def newTableSql (td : TableDifference) : String :=
  "-- Create table: " ++ td.table_name ++ "\n" ++
  "CREATE TABLE " ++ td.table_name ++ " (\n" ++
  String.intercalate ",\n" (td.column_changes.filterMap createColumnClause) ++
  "\n);\n\n" ++
  String.join (td.index_changes.map (fun idx_change =>
    match idx_change.target_definition with
    | some idx_info => idx_info.definition ++ ";\n"
    | none => "")) ++
  String.join (td.fk_changes.map (fun fk_change =>
    match fk_change.target_definition with
    | some target_fk => fkAddSql fk_change.constraint_name target_fk
    | none => "")) ++
  "\n"

/-- The dropped-tables section body for one table
(`generate_migration_script`, lines 858-863). -/
def droppedTableSql (td : TableDifference) : String :=
  "-- WARNING: Dropping table will cause data loss!\nDROP TABLE IF EXISTS " ++
    td.table_name ++ " CASCADE;\n\n"

/-- The views section body for one view change
(`generate_migration_script`, lines 882-895). -/
def viewSql (vc : ViewChange) : String :=
  match vc.status with
  | DiffStatus.Added | DiffStatus.Modified =>
    "DROP VIEW IF EXISTS " ++ vc.view_name ++ ";\n\n" ++
      (match vc.target_definition with
       | some d => "CREATE VIEW " ++ vc.view_name ++ " AS\n" ++ d ++ ";\n\n"
       | none => "")
  | DiffStatus.Removed => "DROP VIEW IF EXISTS " ++ vc.view_name ++ ";\n\n"
  | DiffStatus.Identical => ""

/-- The routines section body for one routine change
(`generate_migration_script`, lines 913-934). -/
def routineSql (rc : RoutineChange) : String :=
  match rc.status with
  | DiffStatus.Added | DiffStatus.Modified =>
    "DROP FUNCTION IF EXISTS " ++ rc.routine_name ++ " CASCADE;\n\n" ++
      (match rc.target_definition with
       | some routine_info =>
         match routine_info.definition with
         | some d => d ++ ";\n\n"
         | none => ""
       | none => "")
  | DiffStatus.Removed => "DROP FUNCTION IF EXISTS " ++ rc.routine_name ++ " CASCADE;\n\n"
  | DiffStatus.Identical => ""

/-- The script header (`generate_migration_script`, lines 575-589).  The
`chrono::Local::now()` timestamp is a parameter. -/
def scriptHeader (source_connection target_connection timestamp : String) : String :=
  "-- ============================================\n-- Schema Migration Script\n-- Source: " ++
  source_connection ++ "\n-- Target: " ++ target_connection ++ "\n-- Generated: " ++
  timestamp ++ "\n-- ============================================\n\n" ++
  "-- WARNING: This script will make changes to the target database!\n-- Review carefully before executing.\n\n"

/-- The comment banner opening a script section. -/
def sectionBanner (title : String) : String :=
  "-- ============================================\n-- " ++ title ++
    "\n-- ============================================\n\n"

/-- Function `generate_migration_script` (`schema_diff.rs` lines 571-960), with
the timestamp made a parameter. -/
def generate_migration_script (comparison : SchemaComparison) (timestamp : String) : String :=
  let modified_tables := comparison.table_differences.filter (fun t => isModified t.status)
  let new_tables := comparison.table_differences.filter (fun t => isAdded t.status)
  let dropped_tables := comparison.table_differences.filter (fun t => isRemoved t.status)
  let view_changes := comparison.view_differences.filter (fun v => !isIdentical v.status)
  let routine_changes := comparison.routine_differences.filter (fun r => !isIdentical r.status)
  let has_changes := !modified_tables.isEmpty || !new_tables.isEmpty ||
    !dropped_tables.isEmpty || !view_changes.isEmpty || !routine_changes.isEmpty
  scriptHeader comparison.source_connection comparison.target_connection timestamp ++
  (if modified_tables.isEmpty then "" else
    sectionBanner "TABLE MODIFICATIONS" ++ String.join (modified_tables.map modifiedTableSql)) ++
  (if new_tables.isEmpty then "" else
    sectionBanner "NEW TABLES" ++ String.join (new_tables.map newTableSql)) ++
  (if dropped_tables.isEmpty then "" else
    sectionBanner "DROPPED TABLES" ++ String.join (dropped_tables.map droppedTableSql)) ++
  (if view_changes.isEmpty then "" else
    sectionBanner "VIEWS" ++ String.join (view_changes.map viewSql)) ++
  (if routine_changes.isEmpty then "" else
    sectionBanner "FUNCTIONS/PROCEDURES" ++ String.join (routine_changes.map routineSql)) ++
  "-- ============================================\n-- END OF MIGRATION SCRIPT\n" ++
  (if !has_changes then "-- No changes detected.\n"
   else
     "-- Total affected objects: " ++
       toString (comparison.summary.tables_added + comparison.summary.tables_removed +
         comparison.summary.tables_modified + comparison.summary.views_changed +
         comparison.summary.routines_changed) ++ "\n" ++
     (if !comparison.warnings.isEmpty then
       "-- Warnings: " ++ toString comparison.warnings.length ++ "\n" else "")) ++
  "-- ============================================\n"

/-! ### Properties of comparison results, as named predicates -/

/-- The relation between a change record's status and the presence of its
key on the two sides of the comparison: a matched pair is `Identical` or
`Modified`, a source-only key is `Added`, a target-only key is `Removed`. -/
def statusOfPresence {α : Type} (st : DiffStatus) (sl tl : Option α) : Prop :=
  (sl.isSome → tl.isSome → st = DiffStatus.Identical ∨ st = DiffStatus.Modified) ∧
  (sl.isSome → tl = none → st = DiffStatus.Added) ∧
  (sl = none → tl.isSome → st = DiffStatus.Removed)

/-- The relation between a change record's status and its embedded
definition fields: `Added` carries only a source definition, `Removed`
only a target definition, `Modified`/`Identical` both. -/
def defsOfStatus {α : Type} (st : DiffStatus) (sd td : Option α) : Prop :=
  (st = DiffStatus.Added → sd.isSome ∧ td = none) ∧
  (st = DiffStatus.Removed → sd = none ∧ td.isSome) ∧
  ((st = DiffStatus.Modified ∨ st = DiffStatus.Identical) → sd.isSome ∧ td.isSome)

/-- Every change record of every entity kind in a comparison relates its
status to the presence of its key in the two input schemas as
`statusOfPresence` demands. -/
def MatchedStatusFacts (source target : EnhancedDatabaseSchema)
    (c : SchemaComparison) : Prop :=
  (∀ td ∈ c.table_differences,
    statusOfPresence td.status
      (mapLookup (fun t => t.table_name) source.tables td.table_name)
      (mapLookup (fun t => t.table_name) target.tables td.table_name)) ∧
  (∀ td ∈ c.table_differences,
    ∀ src, mapLookup (fun t => t.table_name) source.tables td.table_name = some src →
    ∀ tgt, mapLookup (fun t => t.table_name) target.tables td.table_name = some tgt →
      (∀ cc ∈ td.column_changes,
        statusOfPresence cc.status
          (mapLookup (fun x => x.column_name) src.columns cc.column_name)
          (mapLookup (fun x => x.column_name) tgt.columns cc.column_name)) ∧
      (∀ ic ∈ td.index_changes,
        statusOfPresence ic.status
          (mapLookup (fun x => x.index_name) src.indexes ic.index_name)
          (mapLookup (fun x => x.index_name) tgt.indexes ic.index_name)) ∧
      (∀ fc ∈ td.fk_changes,
        statusOfPresence fc.status
          (mapLookup (fun x => x.constraint_name) src.foreign_keys fc.constraint_name)
          (mapLookup (fun x => x.constraint_name) tgt.foreign_keys fc.constraint_name))) ∧
  (∀ vc ∈ c.view_differences,
    statusOfPresence vc.status
      (mapLookup (fun v => v.view_name) source.views vc.view_name)
      (mapLookup (fun v => v.view_name) target.views vc.view_name)) ∧
  (∀ rc ∈ c.routine_differences,
    statusOfPresence rc.status
      (mapLookup (fun r => r.routine_name) source.routines rc.routine_name)
      (mapLookup (fun r => r.routine_name) target.routines rc.routine_name))

/-- Every change record of every entity kind in a comparison relates its
status to its own embedded definition fields as `defsOfStatus` demands. -/
def DefsStatusFacts (c : SchemaComparison) : Prop :=
  (∀ td ∈ c.table_differences, ∀ cc ∈ td.column_changes,
    defsOfStatus cc.status cc.source_definition cc.target_definition) ∧
  (∀ td ∈ c.table_differences, ∀ ic ∈ td.index_changes,
    defsOfStatus ic.status ic.source_definition ic.target_definition) ∧
  (∀ td ∈ c.table_differences, ∀ fc ∈ td.fk_changes,
    defsOfStatus fc.status fc.source_definition fc.target_definition) ∧
  (∀ vc ∈ c.view_differences,
    defsOfStatus vc.status vc.source_definition vc.target_definition) ∧
  (∀ rc ∈ c.routine_differences,
    defsOfStatus rc.status rc.source_definition rc.target_definition)

/-- The identity keys of the change lists of a comparison cover exactly
the unions of the corresponding input key sets, without duplicates. -/
def UnionFacts (source target : EnhancedDatabaseSchema) (c : SchemaComparison) : Prop :=
  ((c.table_differences.map (fun td => td.table_name)).Nodup ∧
    (∀ k, k ∈ c.table_differences.map (fun td => td.table_name) ↔
      (k ∈ source.tables.map (fun t => t.table_name) ∨
       k ∈ target.tables.map (fun t => t.table_name)))) ∧
  (∀ td ∈ c.table_differences,
    ∀ src, mapLookup (fun t => t.table_name) source.tables td.table_name = some src →
    ∀ tgt, mapLookup (fun t => t.table_name) target.tables td.table_name = some tgt →
      ((td.column_changes.map (fun cc => cc.column_name)).Nodup ∧
        (∀ k, k ∈ td.column_changes.map (fun cc => cc.column_name) ↔
          (k ∈ src.columns.map (fun x => x.column_name) ∨
           k ∈ tgt.columns.map (fun x => x.column_name)))) ∧
      ((td.index_changes.map (fun ic => ic.index_name)).Nodup ∧
        (∀ k, k ∈ td.index_changes.map (fun ic => ic.index_name) ↔
          (k ∈ src.indexes.map (fun x => x.index_name) ∨
           k ∈ tgt.indexes.map (fun x => x.index_name)))) ∧
      ((td.fk_changes.map (fun fc => fc.constraint_name)).Nodup ∧
        (∀ k, k ∈ td.fk_changes.map (fun fc => fc.constraint_name) ↔
          (k ∈ src.foreign_keys.map (fun x => x.constraint_name) ∨
           k ∈ tgt.foreign_keys.map (fun x => x.constraint_name)))))

/-- The warning set of a comparison, decomposed per emitting entity:
each `Removed` table yields exactly its one `High`/`data_loss` warning,
each `Removed` column exactly its one `High`/`data_loss` warning, each
`Modified` column with a `type:` change descriptor exactly its one
`Medium`/`breaking_change` warning, and nothing else emits a warning. -/
def WarningFacts (c : SchemaComparison) : Prop :=
  c.warnings = c.table_differences.flatMap tableWarnings ∧
  (∀ td ∈ c.table_differences, td.status = DiffStatus.Removed →
    tableWarnings td = [droppedTableWarning td.table_name]) ∧
  (∀ td ∈ c.table_differences, td.status = DiffStatus.Added → tableWarnings td = []) ∧
  (∀ td ∈ c.table_differences, ∀ cc ∈ td.column_changes,
    (cc.status = DiffStatus.Removed →
      columnWarnings td.table_name cc = [droppedColumnWarning td.table_name cc.column_name]) ∧
    (cc.status = DiffStatus.Modified →
      (cc.changes.any (fun ch => strStartsWith ch "type:") = true →
        columnWarnings td.table_name cc = [typeChangeWarning td.table_name cc.column_name]) ∧
      (cc.changes.any (fun ch => strStartsWith ch "type:") = false →
        columnWarnings td.table_name cc = [])) ∧
    (cc.status = DiffStatus.Added → columnWarnings td.table_name cc = []) ∧
    (cc.status = DiffStatus.Identical → columnWarnings td.table_name cc = [])) ∧
  (∀ (v1 v2 : List ViewChange) (r1 r2 : List RoutineChange),
    generate_warnings c.table_differences v1 r1 = generate_warnings c.table_differences v2 r2)

/-- What holds of a comparison of a schema with itself: every
column/index/foreign-key/view/routine record is `Identical`, there are no
warnings, and a table's status is `Modified` exactly when one of its
change lists is non-empty (which is the case whenever the table has any
column, index, or foreign key at all). -/
def SelfCompFacts (c : SchemaComparison) : Prop :=
  (∀ td ∈ c.table_differences,
    (∀ cc ∈ td.column_changes, cc.status = DiffStatus.Identical ∧ cc.changes = []) ∧
    (∀ ic ∈ td.index_changes, ic.status = DiffStatus.Identical) ∧
    (∀ fc ∈ td.fk_changes, fc.status = DiffStatus.Identical) ∧
    td.status = (if (!td.column_changes.isEmpty || !td.index_changes.isEmpty ||
      !td.fk_changes.isEmpty) = true then DiffStatus.Modified else DiffStatus.Identical)) ∧
  (∀ vc ∈ c.view_differences, vc.status = DiffStatus.Identical) ∧
  (∀ rc ∈ c.routine_differences, rc.status = DiffStatus.Identical) ∧
  c.warnings = []

/-- The footer a migration script ends with when nothing changed. -/
def noChangesFooter : String :=
  "-- ============================================\n-- END OF MIGRATION SCRIPT\n-- No changes detected.\n-- ============================================\n"

/-! ### Concrete schemas used to exercise the comparator -/

/-- Column constructor shorthand for the concrete schemas below. -/
def mkColumn (n ty null : String) (pk : Bool) (dflt : Option String)
    (maxlen : Option Int) (pos : Int) : EnhancedColumnInfo :=
  { column_name := n, data_type := ty, is_nullable := null, is_primary_key := pk
    column_default := dflt, character_maximum_length := maxlen
    numeric_precision := none, numeric_scale := none, ordinal_position := pos }

/-- Placeholder comparison used only as the `Option.getD` default when
naming a comparison the comparator provably returns. -/
def defaultComparison : SchemaComparison :=
  { source_connection := "", target_connection := ""
    summary := { tables_modified := 0, tables_added := 0, tables_removed := 0
                 indexes_missing := 0, views_changed := 0, routines_changed := 0 }
    table_differences := [], view_differences := [], routine_differences := []
    warnings := [] }

/-- The source schema of the spec's concrete scenario:
`users(id int pk, name varchar(50) not null)`. -/
def c1src : EnhancedDatabaseSchema :=
  { tables := [{ table_name := "users"
                 columns := [mkColumn "id" "int" "NO" true none none 1,
                             mkColumn "name" "varchar" "NO" false none (some 50) 2]
                 foreign_keys := [], indexes := [] }]
    views := [], routines := [] }

/-- The target schema of the spec's concrete scenario:
`users(id int pk, name varchar(50), email varchar(100) not null)`. -/
def c1tgt : EnhancedDatabaseSchema :=
  { tables := [{ table_name := "users"
                 columns := [mkColumn "id" "int" "NO" true none none 1,
                             mkColumn "name" "varchar" "YES" false none (some 50) 2,
                             mkColumn "email" "varchar" "NO" false none (some 100) 3]
                 foreign_keys := [], indexes := [] }]
    views := [], routines := [] }

/-- The comparison of the concrete scenario, under the canonical
iteration orders. -/
def c1comp : SchemaComparison :=
  (compare_schemasWith (canonicalOrders c1src c1tgt) c1src c1tgt
    "source-db" "target-db").getD defaultComparison

/-- The migration script of the concrete scenario. -/
def c1script : String := generate_migration_script c1comp "2024-01-01 00:00:00"

/-- A schema with one table holding one column, for the self-comparison
counterexample. -/
def c2schema : EnhancedDatabaseSchema :=
  { tables := [{ table_name := "users"
                 columns := [mkColumn "id" "int" "NO" true none none 1]
                 foreign_keys := [], indexes := [] }]
    views := [], routines := [] }

/-- The self-comparison of `c2schema` under the canonical orders. -/
def c2comp : SchemaComparison :=
  (compare_schemasWith (canonicalOrders c2schema c2schema) c2schema c2schema
    "conn" "conn").getD defaultComparison

/-- A source schema holding one table `t` with one column `mycol`, absent
from the target: `t` is classified `Added`. -/
def c3src : EnhancedDatabaseSchema :=
  { tables := [{ table_name := "t"
                 columns := [mkColumn "mycol" "int" "NO" false none none 1]
                 foreign_keys := [], indexes := [] }]
    views := [], routines := [] }

/-- The empty target schema of the added-table scenario. -/
def c3tgt : EnhancedDatabaseSchema := { tables := [], views := [], routines := [] }

/-- The comparison of the added-table scenario. -/
def c3comp : SchemaComparison :=
  (compare_schemasWith (canonicalOrders c3src c3tgt) c3src c3tgt
    "source-db" "target-db").getD defaultComparison

/-- The migration script of the added-table scenario. -/
def c3script : String := generate_migration_script c3comp "2024-01-01 00:00:00"

/-- A schema with two empty tables `a` and `b`, whose self-comparison is
order-sensitive. -/
def c4schema : EnhancedDatabaseSchema :=
  { tables := [{ table_name := "a", columns := [], foreign_keys := [], indexes := [] },
               { table_name := "b", columns := [], foreign_keys := [], indexes := [] }]
    views := [], routines := [] }

/-- One possible `HashSet` enumeration of the table-name union of
`c4schema` against itself. -/
def c4ordsAB : DiffOrders :=
  { tableOrder := ["a", "b"], colOrder := fun _ => [], idxOrder := fun _ => []
    fkOrder := fun _ => [], viewOrder := [], routineOrder := [] }

/-- The other possible enumeration of the same union. -/
def c4ordsBA : DiffOrders :=
  { tableOrder := ["b", "a"], colOrder := fun _ => [], idxOrder := fun _ => []
    fkOrder := fun _ => [], viewOrder := [], routineOrder := [] }

/-- Source schema with an added view `v1`, a modified view `v2`, and an
added routine `r1`. -/
def c7src : EnhancedDatabaseSchema :=
  { tables := []
    views := [{ view_name := "v1", definition := "SELECT 1" },
              { view_name := "v2", definition := "SELECT 2" }]
    routines := [{ routine_name := "r1", routine_type := "FUNCTION"
                   definition := some "CREATE FUNCTION r1() RETURNS int AS 1"
                   return_type := some "int" }] }

/-- Target schema with the other version of `v2` and a removed view
`v3`. -/
def c7tgt : EnhancedDatabaseSchema :=
  { tables := []
    views := [{ view_name := "v2", definition := "SELECT 3" },
              { view_name := "v3", definition := "SELECT 4" }]
    routines := [] }

/-- The comparison of the view/routine scenario. -/
def c7comp : SchemaComparison :=
  (compare_schemasWith (canonicalOrders c7src c7tgt) c7src c7tgt
    "source-db" "target-db").getD defaultComparison

/-- The migration script of the view/routine scenario. -/
def c7script : String := generate_migration_script c7comp "2024-01-01 00:00:00"

theorem validOrders_canonical (source target : EnhancedDatabaseSchema) :
    ValidOrders (canonicalOrders source target) source target :=
  ⟨List.Perm.refl _, fun _ _ => ⟨List.Perm.refl _, List.Perm.refl _, List.Perm.refl _⟩,
   List.Perm.refl _, List.Perm.refl _⟩

/-! ### General lemmas about the key-union traversal -/

theorem traverseOpt_nil {β : Type} (f : String → Option β) :
    traverseOpt f [] = some [] := rfl

theorem traverseOpt_cons_eq_some {β : Type} {f : String → Option β} {k : String}
    {ks : List String} {ys : List β} (h : traverseOpt f (k :: ks) = some ys) :
    ∃ b bs, f k = some b ∧ traverseOpt f ks = some bs ∧ ys = b :: bs := by
  cases hfk : f k with
  | none => simp [traverseOpt, hfk] at h
  | some b =>
    cases hrec : traverseOpt f ks with
    | none => simp [traverseOpt, hfk, hrec] at h
    | some bs =>
      refine ⟨b, bs, rfl, rfl, ?_⟩
      simp [traverseOpt, hfk, hrec] at h
      exact h.symm

theorem traverseOpt_mem {β : Type} {f : String → Option β} :
    ∀ {l : List String} {ys : List β}, traverseOpt f l = some ys →
      ∀ y ∈ ys, ∃ k ∈ l, f k = some y := by
  intro l
  induction l with
  | nil =>
    intro ys h y hy
    simp [traverseOpt] at h
    subst h
    simp at hy
  | cons k ks ih =>
    intro ys h y hy
    obtain ⟨b, bs, hfk, hrec, rfl⟩ := traverseOpt_cons_eq_some h
    rcases List.mem_cons.mp hy with rfl | hy
    · exact ⟨k, List.mem_cons_self _ _, hfk⟩
    · obtain ⟨k', hk', hfk'⟩ := ih hrec y hy
      exact ⟨k', List.mem_cons_of_mem _ hk', hfk'⟩

theorem traverseOpt_isSome {β : Type} {f : String → Option β} :
    ∀ {l : List String}, (∀ k ∈ l, (f k).isSome) → (traverseOpt f l).isSome := by
  intro l
  induction l with
  | nil => intro _; simp [traverseOpt]
  | cons k ks ih =>
    intro h
    obtain ⟨b, hb⟩ := Option.isSome_iff_exists.mp (h k (List.mem_cons_self _ _))
    obtain ⟨bs, hbs⟩ := Option.isSome_iff_exists.mp
      (ih (fun k' hk' => h k' (List.mem_cons_of_mem _ hk')))
    simp [traverseOpt, hb, hbs]

theorem traverseOpt_keys {β : Type} {f : String → Option β} {g : β → String}
    (hg : ∀ k y, f k = some y → g y = k) :
    ∀ {l : List String} {ys : List β}, traverseOpt f l = some ys → ys.map g = l := by
  intro l
  induction l with
  | nil =>
    intro ys h
    simp [traverseOpt] at h
    subst h
    rfl
  | cons k ks ih =>
    intro ys h
    obtain ⟨b, bs, hfk, hrec, rfl⟩ := traverseOpt_cons_eq_some h
    simp [List.map_cons, hg k b hfk, ih hrec]

theorem traverseOpt_eq_nil {β : Type} {f : String → Option β} {ys : List β}
    (h : traverseOpt f [] = some ys) : ys = [] := by
  simp [traverseOpt] at h
  exact h

theorem mapLookup_isSome_iff {α : Type} (key : α → String) (l : List α) (k : String) :
    (mapLookup key l k).isSome ↔ k ∈ l.map key := by
  unfold mapLookup
  rw [List.find?_isSome]
  constructor
  · rintro ⟨x, hx, hk⟩
    exact List.mem_map.mpr ⟨x, List.mem_reverse.mp hx, beq_iff_eq.mp hk⟩
  · rintro hk
    obtain ⟨x, hx, rfl⟩ := List.mem_map.mp hk
    exact ⟨x, List.mem_reverse.mpr hx, beq_iff_eq.mpr rfl⟩

theorem mapLookup_mem {α : Type} {key : α → String} {l : List α} {k : String} {x : α}
    (h : mapLookup key l k = some x) : x ∈ l ∧ key x = k := by
  unfold mapLookup at h
  have h1 : x ∈ l.reverse := List.mem_of_find?_eq_some h
  have h2 := List.find?_some h
  simp only [beq_iff_eq] at h2
  exact ⟨List.mem_reverse.mp h1, h2⟩

theorem mem_unionKeys {α : Type} (key : α → String) (src tgt : List α) (k : String) :
    k ∈ unionKeys key src tgt ↔ k ∈ src.map key ∨ k ∈ tgt.map key := by
  unfold unionKeys
  rw [List.mem_dedup, List.mem_append]

theorem nodup_unionKeys {α : Type} (key : α → String) (src tgt : List α) :
    (unionKeys key src tgt).Nodup :=
  List.nodup_dedup _

theorem mem_unionKeys_iff_lookup {α : Type} (key : α → String) (src tgt : List α)
    (k : String) :
    k ∈ unionKeys key src tgt ↔
      (mapLookup key src k).isSome ∨ (mapLookup key tgt k).isSome := by
  rw [mem_unionKeys, mapLookup_isSome_iff, mapLookup_isSome_iff]

/-! ### Spec lemmas for the per-key classifiers -/

theorem ite_identical_or_modified (c : Prop) [Decidable c] :
    (if c then DiffStatus.Identical else DiffStatus.Modified) = DiffStatus.Identical ∨
      (if c then DiffStatus.Identical else DiffStatus.Modified) = DiffStatus.Modified := by
  split
  · exact Or.inl rfl
  · exact Or.inr rfl

theorem ite_modified_or_identical (c : Prop) [Decidable c] :
    (if c then DiffStatus.Modified else DiffStatus.Identical) = DiffStatus.Identical ∨
      (if c then DiffStatus.Modified else DiffStatus.Identical) = DiffStatus.Modified := by
  split
  · exact Or.inr rfl
  · exact Or.inl rfl

theorem columnChangeAt_spec {source_cols target_cols : List EnhancedColumnInfo}
    {k : String} {cc : ColumnChange} (h : columnChangeAt source_cols target_cols k = some cc) :
    cc.column_name = k ∧
    cc.source_definition = mapLookup (fun c => c.column_name) source_cols k ∧
    cc.target_definition = mapLookup (fun c => c.column_name) target_cols k ∧
    statusOfPresence cc.status (mapLookup (fun c => c.column_name) source_cols k)
      (mapLookup (fun c => c.column_name) target_cols k) := by
  cases hs : mapLookup (fun c => c.column_name) source_cols k with
  | none =>
    cases ht : mapLookup (fun c => c.column_name) target_cols k with
    | none => simp [columnChangeAt, hs, ht] at h
    | some tgt =>
      simp [columnChangeAt, hs, ht] at h
      subst h
      refine ⟨rfl, rfl, rfl, ?_, ?_, ?_⟩ <;> simp
  | some src =>
    cases ht : mapLookup (fun c => c.column_name) target_cols k with
    | none =>
      simp [columnChangeAt, hs, ht] at h
      subst h
      refine ⟨rfl, rfl, rfl, ?_, ?_, ?_⟩ <;> simp
    | some tgt =>
      simp [columnChangeAt, hs, ht] at h
      subst h
      refine ⟨rfl, rfl, rfl, ?_, ?_, ?_⟩
      · intro _ _
        exact ite_identical_or_modified _
      · intro _ h2
        simp at h2
      · intro h2
        simp at h2

theorem columnChangeAt_isSome {source_cols target_cols : List EnhancedColumnInfo}
    {k : String}
    (h : (mapLookup (fun c => c.column_name) source_cols k).isSome ∨
      (mapLookup (fun c => c.column_name) target_cols k).isSome) :
    (columnChangeAt source_cols target_cols k).isSome := by
  cases hs : mapLookup (fun c => c.column_name) source_cols k with
  | none =>
    cases ht : mapLookup (fun c => c.column_name) target_cols k with
    | none => rw [hs, ht] at h; simp at h
    | some tgt => simp [columnChangeAt, hs, ht]
  | some src =>
    cases ht : mapLookup (fun c => c.column_name) target_cols k with
    | none => simp [columnChangeAt, hs, ht]
    | some tgt => simp [columnChangeAt, hs, ht]

theorem indexChangeAt_spec {source_indexes target_indexes : List IndexInfo}
    {k : String} {ic : IndexChange} (h : indexChangeAt source_indexes target_indexes k = some ic) :
    ic.index_name = k ∧
    ic.source_definition = mapLookup (fun i => i.index_name) source_indexes k ∧
    ic.target_definition = mapLookup (fun i => i.index_name) target_indexes k ∧
    statusOfPresence ic.status (mapLookup (fun i => i.index_name) source_indexes k)
      (mapLookup (fun i => i.index_name) target_indexes k) := by
  cases hs : mapLookup (fun i => i.index_name) source_indexes k with
  | none =>
    cases ht : mapLookup (fun i => i.index_name) target_indexes k with
    | none => simp [indexChangeAt, hs, ht] at h
    | some tgt =>
      simp [indexChangeAt, hs, ht] at h
      subst h
      refine ⟨rfl, rfl, rfl, ?_, ?_, ?_⟩ <;> simp
  | some src =>
    cases ht : mapLookup (fun i => i.index_name) target_indexes k with
    | none =>
      simp [indexChangeAt, hs, ht] at h
      subst h
      refine ⟨rfl, rfl, rfl, ?_, ?_, ?_⟩ <;> simp
    | some tgt =>
      simp [indexChangeAt, hs, ht] at h
      subst h
      refine ⟨rfl, rfl, rfl, ?_, ?_, ?_⟩
      · intro _ _
        exact ite_modified_or_identical _
      · intro _ h2
        simp at h2
      · intro h2
        simp at h2

theorem indexChangeAt_isSome {source_indexes target_indexes : List IndexInfo}
    {k : String}
    (h : (mapLookup (fun i => i.index_name) source_indexes k).isSome ∨
      (mapLookup (fun i => i.index_name) target_indexes k).isSome) :
    (indexChangeAt source_indexes target_indexes k).isSome := by
  cases hs : mapLookup (fun i => i.index_name) source_indexes k with
  | none =>
    cases ht : mapLookup (fun i => i.index_name) target_indexes k with
    | none => rw [hs, ht] at h; simp at h
    | some tgt => simp [indexChangeAt, hs, ht]
  | some src =>
    cases ht : mapLookup (fun i => i.index_name) target_indexes k with
    | none => simp [indexChangeAt, hs, ht]
    | some tgt => simp [indexChangeAt, hs, ht]

theorem foreignKeyChangeAt_spec {source_fks target_fks : List ForeignKeyInfo}
    {k : String} {fc : ForeignKeyChange}
    (h : foreignKeyChangeAt source_fks target_fks k = some fc) :
    fc.constraint_name = k ∧
    fc.source_definition = mapLookup (fun f => f.constraint_name) source_fks k ∧
    fc.target_definition = mapLookup (fun f => f.constraint_name) target_fks k ∧
    statusOfPresence fc.status (mapLookup (fun f => f.constraint_name) source_fks k)
      (mapLookup (fun f => f.constraint_name) target_fks k) := by
  cases hs : mapLookup (fun f => f.constraint_name) source_fks k with
  | none =>
    cases ht : mapLookup (fun f => f.constraint_name) target_fks k with
    | none => simp [foreignKeyChangeAt, hs, ht] at h
    | some tgt =>
      simp [foreignKeyChangeAt, hs, ht] at h
      subst h
      refine ⟨rfl, rfl, rfl, ?_, ?_, ?_⟩ <;> simp
  | some src =>
    cases ht : mapLookup (fun f => f.constraint_name) target_fks k with
    | none =>
      simp [foreignKeyChangeAt, hs, ht] at h
      subst h
      refine ⟨rfl, rfl, rfl, ?_, ?_, ?_⟩ <;> simp
    | some tgt =>
      simp [foreignKeyChangeAt, hs, ht] at h
      subst h
      refine ⟨rfl, rfl, rfl, ?_, ?_, ?_⟩
      · intro _ _
        exact ite_modified_or_identical _
      · intro _ h2
        simp at h2
      · intro h2
        simp at h2

theorem foreignKeyChangeAt_isSome {source_fks target_fks : List ForeignKeyInfo}
    {k : String}
    (h : (mapLookup (fun f => f.constraint_name) source_fks k).isSome ∨
      (mapLookup (fun f => f.constraint_name) target_fks k).isSome) :
    (foreignKeyChangeAt source_fks target_fks k).isSome := by
  cases hs : mapLookup (fun f => f.constraint_name) source_fks k with
  | none =>
    cases ht : mapLookup (fun f => f.constraint_name) target_fks k with
    | none => rw [hs, ht] at h; simp at h
    | some tgt => simp [foreignKeyChangeAt, hs, ht]
  | some src =>
    cases ht : mapLookup (fun f => f.constraint_name) target_fks k with
    | none => simp [foreignKeyChangeAt, hs, ht]
    | some tgt => simp [foreignKeyChangeAt, hs, ht]

theorem viewChangeAt_spec {source_views target_views : List ViewInfo}
    {k : String} {vc : ViewChange} (h : viewChangeAt source_views target_views k = some vc) :
    vc.view_name = k ∧
    vc.source_definition = (mapLookup (fun v => v.view_name) source_views k).map
      (fun v => v.definition) ∧
    vc.target_definition = (mapLookup (fun v => v.view_name) target_views k).map
      (fun v => v.definition) ∧
    statusOfPresence vc.status (mapLookup (fun v => v.view_name) source_views k)
      (mapLookup (fun v => v.view_name) target_views k) := by
  cases hs : mapLookup (fun v => v.view_name) source_views k with
  | none =>
    cases ht : mapLookup (fun v => v.view_name) target_views k with
    | none => simp [viewChangeAt, hs, ht] at h
    | some tgt =>
      simp [viewChangeAt, hs, ht] at h
      subst h
      refine ⟨rfl, rfl, rfl, ?_, ?_, ?_⟩ <;> simp
  | some src =>
    cases ht : mapLookup (fun v => v.view_name) target_views k with
    | none =>
      simp [viewChangeAt, hs, ht] at h
      subst h
      refine ⟨rfl, rfl, rfl, ?_, ?_, ?_⟩ <;> simp
    | some tgt =>
      simp [viewChangeAt, hs, ht] at h
      subst h
      refine ⟨rfl, rfl, rfl, ?_, ?_, ?_⟩
      · intro _ _
        split
        · exact Or.inl rfl
        · exact Or.inr rfl
      · intro _ h2
        simp at h2
      · intro h2
        simp at h2

theorem viewChangeAt_isSome {source_views target_views : List ViewInfo}
    {k : String}
    (h : (mapLookup (fun v => v.view_name) source_views k).isSome ∨
      (mapLookup (fun v => v.view_name) target_views k).isSome) :
    (viewChangeAt source_views target_views k).isSome := by
  cases hs : mapLookup (fun v => v.view_name) source_views k with
  | none =>
    cases ht : mapLookup (fun v => v.view_name) target_views k with
    | none => rw [hs, ht] at h; simp at h
    | some tgt => simp [viewChangeAt, hs, ht]
  | some src =>
    cases ht : mapLookup (fun v => v.view_name) target_views k with
    | none => simp [viewChangeAt, hs, ht]
    | some tgt => simp [viewChangeAt, hs, ht]

theorem routineChangeAt_spec {source_routines target_routines : List RoutineInfo}
    {k : String} {rc : RoutineChange}
    (h : routineChangeAt source_routines target_routines k = some rc) :
    rc.routine_name = k ∧
    rc.source_definition = mapLookup (fun r => r.routine_name) source_routines k ∧
    rc.target_definition = mapLookup (fun r => r.routine_name) target_routines k ∧
    statusOfPresence rc.status (mapLookup (fun r => r.routine_name) source_routines k)
      (mapLookup (fun r => r.routine_name) target_routines k) := by
  cases hs : mapLookup (fun r => r.routine_name) source_routines k with
  | none =>
    cases ht : mapLookup (fun r => r.routine_name) target_routines k with
    | none => simp [routineChangeAt, hs, ht] at h
    | some tgt =>
      simp [routineChangeAt, hs, ht] at h
      subst h
      refine ⟨rfl, rfl, rfl, ?_, ?_, ?_⟩ <;> simp
  | some src =>
    cases ht : mapLookup (fun r => r.routine_name) target_routines k with
    | none =>
      simp [routineChangeAt, hs, ht] at h
      subst h
      refine ⟨rfl, rfl, rfl, ?_, ?_, ?_⟩ <;> simp
    | some tgt =>
      simp [routineChangeAt, hs, ht] at h
      subst h
      refine ⟨rfl, rfl, rfl, ?_, ?_, ?_⟩
      · intro _ _
        exact ite_modified_or_identical _
      · intro _ h2
        simp at h2
      · intro h2
        simp at h2

theorem routineChangeAt_isSome {source_routines target_routines : List RoutineInfo}
    {k : String}
    (h : (mapLookup (fun r => r.routine_name) source_routines k).isSome ∨
      (mapLookup (fun r => r.routine_name) target_routines k).isSome) :
    (routineChangeAt source_routines target_routines k).isSome := by
  cases hs : mapLookup (fun r => r.routine_name) source_routines k with
  | none =>
    cases ht : mapLookup (fun r => r.routine_name) target_routines k with
    | none => rw [hs, ht] at h; simp at h
    | some tgt => simp [routineChangeAt, hs, ht]
  | some src =>
    cases ht : mapLookup (fun r => r.routine_name) target_routines k with
    | none => simp [routineChangeAt, hs, ht]
    | some tgt => simp [routineChangeAt, hs, ht]

theorem tableDiffAt_spec {ords : DiffOrders}
    {source_tables target_tables : List EnhancedTableInfo}
    {k : String} {td : TableDifference}
    (h : tableDiffAt ords source_tables target_tables k = some td) :
    td.table_name = k ∧
    statusOfPresence td.status (mapLookup (fun t => t.table_name) source_tables k)
      (mapLookup (fun t => t.table_name) target_tables k) ∧
    (∀ src, mapLookup (fun t => t.table_name) source_tables k = some src →
     ∀ tgt, mapLookup (fun t => t.table_name) target_tables k = some tgt →
      compare_columnsWith (ords.colOrder k) src.columns tgt.columns = some td.column_changes ∧
      compare_indexesWith (ords.idxOrder k) src.indexes tgt.indexes = some td.index_changes ∧
      compare_foreign_keysWith (ords.fkOrder k) src.foreign_keys tgt.foreign_keys =
        some td.fk_changes ∧
      td.status = (if (!td.column_changes.isEmpty || !td.index_changes.isEmpty ||
          !td.fk_changes.isEmpty) = true
        then DiffStatus.Modified else DiffStatus.Identical)) ∧
    ((mapLookup (fun t => t.table_name) source_tables k = none ∨
      mapLookup (fun t => t.table_name) target_tables k = none) →
      td.column_changes = [] ∧ td.index_changes = [] ∧ td.fk_changes = []) := by
  cases hs : mapLookup (fun t => t.table_name) source_tables k with
  | none =>
    cases ht : mapLookup (fun t => t.table_name) target_tables k with
    | none => simp [tableDiffAt, hs, ht] at h
    | some tgt =>
      simp [tableDiffAt, hs, ht] at h
      subst h
      refine ⟨rfl, ⟨?_, ?_, ?_⟩, ?_, ?_⟩ <;> simp
  | some src =>
    cases ht : mapLookup (fun t => t.table_name) target_tables k with
    | none =>
      simp [tableDiffAt, hs, ht] at h
      subst h
      refine ⟨rfl, ⟨?_, ?_, ?_⟩, ?_, ?_⟩ <;> simp
    | some tgt =>
      cases hc : compare_columnsWith (ords.colOrder k) src.columns tgt.columns with
      | none => simp [tableDiffAt, hs, ht, hc] at h
      | some ccs =>
        cases hi : compare_indexesWith (ords.idxOrder k) src.indexes tgt.indexes with
        | none => simp [tableDiffAt, hs, ht, hc, hi] at h
        | some ics =>
          cases hf : compare_foreign_keysWith (ords.fkOrder k) src.foreign_keys
              tgt.foreign_keys with
          | none => simp [tableDiffAt, hs, ht, hc, hi, hf] at h
          | some fcs =>
            simp only [tableDiffAt, hs, ht, hc, hi, hf, Option.some.injEq] at h
            subst h
            refine ⟨rfl, ⟨?_, ?_, ?_⟩, ?_, ?_⟩
            · intro _ _
              exact ite_modified_or_identical _
            · intro _ h2
              simp at h2
            · intro h2
              simp at h2
            · intro src' hsrc tgt' htgt
              obtain rfl : src = src' := Option.some.inj hsrc
              obtain rfl : tgt = tgt' := Option.some.inj htgt
              exact ⟨hc, hi, hf, rfl⟩
            · rintro (h2 | h2) <;> simp at h2

theorem tableDiffAt_isSome {ords : DiffOrders}
    {source_tables target_tables : List EnhancedTableInfo} {k : String}
    (h : (mapLookup (fun t => t.table_name) source_tables k).isSome ∨
      (mapLookup (fun t => t.table_name) target_tables k).isSome)
    (hcols : ∀ src, mapLookup (fun t => t.table_name) source_tables k = some src →
      ∀ tgt, mapLookup (fun t => t.table_name) target_tables k = some tgt →
        (compare_columnsWith (ords.colOrder k) src.columns tgt.columns).isSome ∧
        (compare_indexesWith (ords.idxOrder k) src.indexes tgt.indexes).isSome ∧
        (compare_foreign_keysWith (ords.fkOrder k) src.foreign_keys
          tgt.foreign_keys).isSome) :
    (tableDiffAt ords source_tables target_tables k).isSome := by
  cases hs : mapLookup (fun t => t.table_name) source_tables k with
  | none =>
    cases ht : mapLookup (fun t => t.table_name) target_tables k with
    | none => rw [hs, ht] at h; simp at h
    | some tgt => simp [tableDiffAt, hs, ht]
  | some src =>
    cases ht : mapLookup (fun t => t.table_name) target_tables k with
    | none => simp [tableDiffAt, hs, ht]
    | some tgt =>
      obtain ⟨h1, h2, h3⟩ := hcols src hs tgt ht
      obtain ⟨ccs, hc⟩ := Option.isSome_iff_exists.mp h1
      obtain ⟨ics, hi⟩ := Option.isSome_iff_exists.mp h2
      obtain ⟨fcs, hf⟩ := Option.isSome_iff_exists.mp h3
      simp [tableDiffAt, hs, ht, hc, hi, hf]

theorem colsOfTable_eq {tables : List EnhancedTableInfo} {k : String}
    {src : EnhancedTableInfo} (h : mapLookup (fun t => t.table_name) tables k = some src) :
    colsOfTable tables k = src.columns := by
  unfold colsOfTable
  rw [h]
  rfl

theorem idxsOfTable_eq {tables : List EnhancedTableInfo} {k : String}
    {src : EnhancedTableInfo} (h : mapLookup (fun t => t.table_name) tables k = some src) :
    idxsOfTable tables k = src.indexes := by
  unfold idxsOfTable
  rw [h]
  rfl

theorem fksOfTable_eq {tables : List EnhancedTableInfo} {k : String}
    {src : EnhancedTableInfo} (h : mapLookup (fun t => t.table_name) tables k = some src) :
    fksOfTable tables k = src.foreign_keys := by
  unfold fksOfTable
  rw [h]
  rfl

theorem compare_columnsWith_total {order : List String}
    {scols tcols : List EnhancedColumnInfo}
    (hp : order.Perm (unionKeys (fun c => c.column_name) scols tcols)) :
    (compare_columnsWith order scols tcols).isSome :=
  traverseOpt_isSome (fun _ hk => columnChangeAt_isSome
    ((mem_unionKeys_iff_lookup _ _ _ _).mp (hp.mem_iff.mp hk)))

theorem compare_indexesWith_total {order : List String}
    {sidx tidx : List IndexInfo}
    (hp : order.Perm (unionKeys (fun i => i.index_name) sidx tidx)) :
    (compare_indexesWith order sidx tidx).isSome :=
  traverseOpt_isSome (fun _ hk => indexChangeAt_isSome
    ((mem_unionKeys_iff_lookup _ _ _ _).mp (hp.mem_iff.mp hk)))

theorem compare_foreign_keysWith_total {order : List String}
    {sfks tfks : List ForeignKeyInfo}
    (hp : order.Perm (unionKeys (fun f => f.constraint_name) sfks tfks)) :
    (compare_foreign_keysWith order sfks tfks).isSome :=
  traverseOpt_isSome (fun _ hk => foreignKeyChangeAt_isSome
    ((mem_unionKeys_iff_lookup _ _ _ _).mp (hp.mem_iff.mp hk)))

theorem compare_viewsWith_total {order : List String}
    {svs tvs : List ViewInfo}
    (hp : order.Perm (unionKeys (fun v => v.view_name) svs tvs)) :
    (compare_viewsWith order svs tvs).isSome :=
  traverseOpt_isSome (fun _ hk => viewChangeAt_isSome
    ((mem_unionKeys_iff_lookup _ _ _ _).mp (hp.mem_iff.mp hk)))

theorem compare_routinesWith_total {order : List String}
    {srs trs : List RoutineInfo}
    (hp : order.Perm (unionKeys (fun r => r.routine_name) srs trs)) :
    (compare_routinesWith order srs trs).isSome :=
  traverseOpt_isSome (fun _ hk => routineChangeAt_isSome
    ((mem_unionKeys_iff_lookup _ _ _ _).mp (hp.mem_iff.mp hk)))

theorem compare_tablesWith_total {ords : DiffOrders}
    {source target : EnhancedDatabaseSchema}
    (hv : ValidOrders ords source target) :
    (compare_tablesWith ords source.tables target.tables).isSome := by
  refine traverseOpt_isSome (fun k hk => ?_)
  refine tableDiffAt_isSome
    ((mem_unionKeys_iff_lookup _ _ _ _).mp (hv.1.mem_iff.mp hk)) ?_
  intro src hsrc tgt htgt
  obtain ⟨hcol, hidx, hfk⟩ := hv.2.1 k hk
  rw [colsOfTable_eq hsrc, colsOfTable_eq htgt] at hcol
  rw [idxsOfTable_eq hsrc, idxsOfTable_eq htgt] at hidx
  rw [fksOfTable_eq hsrc, fksOfTable_eq htgt] at hfk
  exact ⟨compare_columnsWith_total hcol, compare_indexesWith_total hidx,
    compare_foreign_keysWith_total hfk⟩

theorem compare_schemasWith_total {ords : DiffOrders}
    {source target : EnhancedDatabaseSchema}
    (hv : ValidOrders ords source target) (a b : String) :
    (compare_schemasWith ords source target a b).isSome := by
  obtain ⟨tds, htds⟩ := Option.isSome_iff_exists.mp (compare_tablesWith_total hv)
  obtain ⟨vds, hvds⟩ := Option.isSome_iff_exists.mp (compare_viewsWith_total hv.2.2.1)
  obtain ⟨rds, hrds⟩ := Option.isSome_iff_exists.mp (compare_routinesWith_total hv.2.2.2)
  simp [compare_schemasWith, htds, hvds, hrds]

theorem compare_schemasWith_spec {ords : DiffOrders}
    {source target : EnhancedDatabaseSchema} {a b : String} {c : SchemaComparison}
    (h : compare_schemasWith ords source target a b = some c) :
    compare_tablesWith ords source.tables target.tables = some c.table_differences ∧
    compare_viewsWith ords.viewOrder source.views target.views = some c.view_differences ∧
    compare_routinesWith ords.routineOrder source.routines target.routines =
      some c.routine_differences ∧
    c.warnings = generate_warnings c.table_differences c.view_differences
      c.routine_differences ∧
    c.source_connection = a ∧ c.target_connection = b := by
  cases htds : compare_tablesWith ords source.tables target.tables with
  | none => simp [compare_schemasWith, htds] at h
  | some tds =>
    cases hvds : compare_viewsWith ords.viewOrder source.views target.views with
    | none => simp [compare_schemasWith, htds, hvds] at h
    | some vds =>
      cases hrds : compare_routinesWith ords.routineOrder source.routines target.routines with
      | none => simp [compare_schemasWith, htds, hvds, hrds] at h
      | some rds =>
        simp only [compare_schemasWith, htds, hvds, hrds, Option.some.injEq] at h
        subst h
        exact ⟨rfl, rfl, rfl, rfl, rfl, rfl⟩

theorem compare_tablesWith_names {ords : DiffOrders}
    {source_tables target_tables : List EnhancedTableInfo} {tds : List TableDifference}
    (h : compare_tablesWith ords source_tables target_tables = some tds) :
    tds.map (fun td => td.table_name) = ords.tableOrder :=
  traverseOpt_keys (fun _ _ hk => (tableDiffAt_spec hk).1) h

theorem compare_tablesWith_mem {ords : DiffOrders}
    {source_tables target_tables : List EnhancedTableInfo} {tds : List TableDifference}
    (h : compare_tablesWith ords source_tables target_tables = some tds)
    {td : TableDifference} (htd : td ∈ tds) :
    td.table_name ∈ ords.tableOrder ∧
      tableDiffAt ords source_tables target_tables td.table_name = some td := by
  obtain ⟨k, hk, hfk⟩ := traverseOpt_mem h td htd
  obtain ⟨hname, -⟩ := tableDiffAt_spec hfk
  subst hname
  exact ⟨hk, hfk⟩

theorem compare_columnsWith_names {order : List String}
    {scols tcols : List EnhancedColumnInfo} {ccs : List ColumnChange}
    (h : compare_columnsWith order scols tcols = some ccs) :
    ccs.map (fun cc => cc.column_name) = order :=
  traverseOpt_keys (fun _ _ hk => (columnChangeAt_spec hk).1) h

theorem compare_columnsWith_mem {order : List String}
    {scols tcols : List EnhancedColumnInfo} {ccs : List ColumnChange}
    (h : compare_columnsWith order scols tcols = some ccs)
    {cc : ColumnChange} (hcc : cc ∈ ccs) :
    cc.column_name ∈ order ∧ columnChangeAt scols tcols cc.column_name = some cc := by
  obtain ⟨k, hk, hfk⟩ := traverseOpt_mem h cc hcc
  obtain ⟨hname, -⟩ := columnChangeAt_spec hfk
  subst hname
  exact ⟨hk, hfk⟩

theorem compare_indexesWith_names {order : List String}
    {sidx tidx : List IndexInfo} {ics : List IndexChange}
    (h : compare_indexesWith order sidx tidx = some ics) :
    ics.map (fun ic => ic.index_name) = order :=
  traverseOpt_keys (fun _ _ hk => (indexChangeAt_spec hk).1) h

theorem compare_indexesWith_mem {order : List String}
    {sidx tidx : List IndexInfo} {ics : List IndexChange}
    (h : compare_indexesWith order sidx tidx = some ics)
    {ic : IndexChange} (hic : ic ∈ ics) :
    ic.index_name ∈ order ∧ indexChangeAt sidx tidx ic.index_name = some ic := by
  obtain ⟨k, hk, hfk⟩ := traverseOpt_mem h ic hic
  obtain ⟨hname, -⟩ := indexChangeAt_spec hfk
  subst hname
  exact ⟨hk, hfk⟩

theorem compare_foreign_keysWith_names {order : List String}
    {sfks tfks : List ForeignKeyInfo} {fcs : List ForeignKeyChange}
    (h : compare_foreign_keysWith order sfks tfks = some fcs) :
    fcs.map (fun fc => fc.constraint_name) = order :=
  traverseOpt_keys (fun _ _ hk => (foreignKeyChangeAt_spec hk).1) h

theorem compare_foreign_keysWith_mem {order : List String}
    {sfks tfks : List ForeignKeyInfo} {fcs : List ForeignKeyChange}
    (h : compare_foreign_keysWith order sfks tfks = some fcs)
    {fc : ForeignKeyChange} (hfc : fc ∈ fcs) :
    fc.constraint_name ∈ order ∧
      foreignKeyChangeAt sfks tfks fc.constraint_name = some fc := by
  obtain ⟨k, hk, hfk⟩ := traverseOpt_mem h fc hfc
  obtain ⟨hname, -⟩ := foreignKeyChangeAt_spec hfk
  subst hname
  exact ⟨hk, hfk⟩

theorem compare_viewsWith_mem {order : List String}
    {svs tvs : List ViewInfo} {vcs : List ViewChange}
    (h : compare_viewsWith order svs tvs = some vcs)
    {vc : ViewChange} (hvc : vc ∈ vcs) :
    vc.view_name ∈ order ∧ viewChangeAt svs tvs vc.view_name = some vc := by
  obtain ⟨k, hk, hfk⟩ := traverseOpt_mem h vc hvc
  obtain ⟨hname, -⟩ := viewChangeAt_spec hfk
  subst hname
  exact ⟨hk, hfk⟩

theorem compare_routinesWith_mem {order : List String}
    {srs trs : List RoutineInfo} {rcs : List RoutineChange}
    (h : compare_routinesWith order srs trs = some rcs)
    {rc : RoutineChange} (hrc : rc ∈ rcs) :
    rc.routine_name ∈ order ∧ routineChangeAt srs trs rc.routine_name = some rc := by
  obtain ⟨k, hk, hfk⟩ := traverseOpt_mem h rc hrc
  obtain ⟨hname, -⟩ := routineChangeAt_spec hfk
  subst hname
  exact ⟨hk, hfk⟩

theorem columnChangeAt_lookup_isSome {scols tcols : List EnhancedColumnInfo}
    {k : String} {cc : ColumnChange} (h : columnChangeAt scols tcols k = some cc) :
    (mapLookup (fun c => c.column_name) scols k).isSome ∨
      (mapLookup (fun c => c.column_name) tcols k).isSome := by
  cases hs : mapLookup (fun c => c.column_name) scols k with
  | none =>
    cases ht : mapLookup (fun c => c.column_name) tcols k with
    | none => simp [columnChangeAt, hs, ht] at h
    | some tgt => simp
  | some src => simp

theorem indexChangeAt_lookup_isSome {sidx tidx : List IndexInfo}
    {k : String} {ic : IndexChange} (h : indexChangeAt sidx tidx k = some ic) :
    (mapLookup (fun i => i.index_name) sidx k).isSome ∨
      (mapLookup (fun i => i.index_name) tidx k).isSome := by
  cases hs : mapLookup (fun i => i.index_name) sidx k with
  | none =>
    cases ht : mapLookup (fun i => i.index_name) tidx k with
    | none => simp [indexChangeAt, hs, ht] at h
    | some tgt => simp
  | some src => simp

theorem foreignKeyChangeAt_lookup_isSome {sfks tfks : List ForeignKeyInfo}
    {k : String} {fc : ForeignKeyChange} (h : foreignKeyChangeAt sfks tfks k = some fc) :
    (mapLookup (fun f => f.constraint_name) sfks k).isSome ∨
      (mapLookup (fun f => f.constraint_name) tfks k).isSome := by
  cases hs : mapLookup (fun f => f.constraint_name) sfks k with
  | none =>
    cases ht : mapLookup (fun f => f.constraint_name) tfks k with
    | none => simp [foreignKeyChangeAt, hs, ht] at h
    | some tgt => simp
  | some src => simp

theorem viewChangeAt_lookup_isSome {svs tvs : List ViewInfo}
    {k : String} {vc : ViewChange} (h : viewChangeAt svs tvs k = some vc) :
    (mapLookup (fun v => v.view_name) svs k).isSome ∨
      (mapLookup (fun v => v.view_name) tvs k).isSome := by
  cases hs : mapLookup (fun v => v.view_name) svs k with
  | none =>
    cases ht : mapLookup (fun v => v.view_name) tvs k with
    | none => simp [viewChangeAt, hs, ht] at h
    | some tgt => simp
  | some src => simp

theorem routineChangeAt_lookup_isSome {srs trs : List RoutineInfo}
    {k : String} {rc : RoutineChange} (h : routineChangeAt srs trs k = some rc) :
    (mapLookup (fun r => r.routine_name) srs k).isSome ∨
      (mapLookup (fun r => r.routine_name) trs k).isSome := by
  cases hs : mapLookup (fun r => r.routine_name) srs k with
  | none =>
    cases ht : mapLookup (fun r => r.routine_name) trs k with
    | none => simp [routineChangeAt, hs, ht] at h
    | some tgt => simp
  | some src => simp

theorem tableDiffAt_lookup_isSome {ords : DiffOrders}
    {stabs ttabs : List EnhancedTableInfo} {k : String} {td : TableDifference}
    (h : tableDiffAt ords stabs ttabs k = some td) :
    (mapLookup (fun t => t.table_name) stabs k).isSome ∨
      (mapLookup (fun t => t.table_name) ttabs k).isSome := by
  cases hs : mapLookup (fun t => t.table_name) stabs k with
  | none =>
    cases ht : mapLookup (fun t => t.table_name) ttabs k with
    | none => simp [tableDiffAt, hs, ht] at h
    | some tgt => simp
  | some src => simp

theorem defsOfStatus_of {α : Type} {st : DiffStatus} {sl tl : Option α}
    (hsp : statusOfPresence st sl tl) (hne : sl.isSome ∨ tl.isSome) :
    defsOfStatus st sl tl := by
  unfold defsOfStatus
  cases sl with
  | none =>
    cases tl with
    | none => simp at hne
    | some y =>
      have hst := hsp.2.2 rfl (by simp)
      subst hst
      refine ⟨?_, ?_, ?_⟩
      · intro h'
        simp at h'
      · intro _
        exact ⟨rfl, by simp⟩
      · intro h'
        rcases h' with h' | h' <;> simp at h'
  | some x =>
    cases tl with
    | none =>
      have hst := hsp.2.1 (by simp) rfl
      subst hst
      refine ⟨?_, ?_, ?_⟩
      · intro _
        exact ⟨by simp, rfl⟩
      · intro h'
        simp at h'
      · intro h'
        rcases h' with h' | h' <;> simp at h'
    | some y =>
      have hor := hsp.1 (by simp) (by simp)
      refine ⟨?_, ?_, ?_⟩
      · intro h'
        rcases hor with h | h <;> rw [h] at h' <;> simp at h'
      · intro h'
        rcases hor with h | h <;> rw [h] at h' <;> simp at h'
      · intro _
        exact ⟨by simp, by simp⟩

theorem columnChangeAt_self {cols : List EnhancedColumnInfo} {k : String}
    {cc : ColumnChange} (h : columnChangeAt cols cols k = some cc) :
    cc.status = DiffStatus.Identical ∧ cc.changes = [] := by
  cases hs : mapLookup (fun c => c.column_name) cols k with
  | none => simp [columnChangeAt, hs] at h
  | some x =>
    simp [columnChangeAt, hs] at h
    subst h
    exact ⟨rfl, rfl⟩

theorem indexChangeAt_self {idxs : List IndexInfo} {k : String}
    {ic : IndexChange} (h : indexChangeAt idxs idxs k = some ic) :
    ic.status = DiffStatus.Identical := by
  cases hs : mapLookup (fun i => i.index_name) idxs k with
  | none => simp [indexChangeAt, hs] at h
  | some x =>
    simp [indexChangeAt, hs] at h
    subst h
    rfl

theorem foreignKeyChangeAt_self {fks : List ForeignKeyInfo} {k : String}
    {fc : ForeignKeyChange} (h : foreignKeyChangeAt fks fks k = some fc) :
    fc.status = DiffStatus.Identical := by
  cases hs : mapLookup (fun f => f.constraint_name) fks k with
  | none => simp [foreignKeyChangeAt, hs] at h
  | some x =>
    simp [foreignKeyChangeAt, hs] at h
    subst h
    rfl

theorem viewChangeAt_self {vs : List ViewInfo} {k : String}
    {vc : ViewChange} (h : viewChangeAt vs vs k = some vc) :
    vc.status = DiffStatus.Identical := by
  cases hs : mapLookup (fun v => v.view_name) vs k with
  | none => simp [viewChangeAt, hs] at h
  | some x =>
    simp [viewChangeAt, hs] at h
    subst h
    rfl

theorem routineChangeAt_self {rs : List RoutineInfo} {k : String}
    {rc : RoutineChange} (h : routineChangeAt rs rs k = some rc) :
    rc.status = DiffStatus.Identical := by
  cases hs : mapLookup (fun r => r.routine_name) rs k with
  | none => simp [routineChangeAt, hs] at h
  | some x =>
    simp [routineChangeAt, hs] at h
    subst h
    rfl

theorem nodup_mem_of_perm_union {α : Type} {key : α → String} {src tgt : List α}
    {names order : List String} (hn : names = order)
    (hp : order.Perm (unionKeys key src tgt)) :
    names.Nodup ∧ ∀ k, k ∈ names ↔ (k ∈ src.map key ∨ k ∈ tgt.map key) := by
  subst hn
  refine ⟨hp.nodup_iff.mpr (nodup_unionKeys _ _ _), fun k => ?_⟩
  rw [hp.mem_iff, mem_unionKeys]

theorem flatMap_eq_nil_of_forall {α β : Type} {l : List α} {f : α → List β}
    (h : ∀ a ∈ l, f a = []) : l.flatMap f = [] := by
  induction l with
  | nil => rfl
  | cons a as ih =>
    simp only [List.flatMap_cons, h a (List.mem_cons_self _ _), List.nil_append]
    exact ih (fun b hb => h b (List.mem_cons_of_mem _ hb))

theorem defsOfStatus_map {α β : Type} {st : DiffStatus} {sl tl : Option α} (f : α → β)
    (h : defsOfStatus st sl tl) : defsOfStatus st (sl.map f) (tl.map f) := by
  unfold defsOfStatus at h ⊢
  cases sl <;> cases tl <;> simp_all

/-! ### The claims -/

/-- C6: for any two schemas (and any hash-set iteration order), the table
names in `table_differences` are exactly the union of the two input
table-name sets with no duplicates, and within each matched table the
column/index/foreign-key change keys are exactly the union of the
corresponding source and target keys, with no key twice. -/
theorem C6_union_completeness (ords : DiffOrders)
    (source target : EnhancedDatabaseSchema) (a b : String)
    (hv : ValidOrders ords source target) (c : SchemaComparison)
    (hc : compare_schemasWith ords source target a b = some c) :
    UnionFacts source target c := by
  obtain ⟨htds, -, -, -, -, -⟩ := compare_schemasWith_spec hc
  refine ⟨nodup_mem_of_perm_union (compare_tablesWith_names htds) hv.1, ?_⟩
  intro td htd src hsrc tgt htgt
  obtain ⟨horder, hat⟩ := compare_tablesWith_mem htds htd
  obtain ⟨hcols, hidx, hfks, -⟩ := (tableDiffAt_spec hat).2.2.1 src hsrc tgt htgt
  obtain ⟨hcp, hip, hfp⟩ := hv.2.1 td.table_name horder
  rw [colsOfTable_eq hsrc, colsOfTable_eq htgt] at hcp
  rw [idxsOfTable_eq hsrc, idxsOfTable_eq htgt] at hip
  rw [fksOfTable_eq hsrc, fksOfTable_eq htgt] at hfp
  exact ⟨nodup_mem_of_perm_union (compare_columnsWith_names hcols) hcp,
    nodup_mem_of_perm_union (compare_indexesWith_names hidx) hip,
    nodup_mem_of_perm_union (compare_foreign_keysWith_names hfks) hfp⟩

/-- C6 witness: the invariant at the concrete scenario schemas. -/
theorem C6_union_completeness_witness :
    ValidOrders (canonicalOrders c1src c1tgt) c1src c1tgt ∧
    compare_schemasWith (canonicalOrders c1src c1tgt) c1src c1tgt
      "source-db" "target-db" = some c1comp ∧
    UnionFacts c1src c1tgt c1comp :=
  ⟨validOrders_canonical _ _, by decide,
    C6_union_completeness (canonicalOrders c1src c1tgt) c1src c1tgt "source-db" "target-db"
      (validOrders_canonical _ _) c1comp (by decide)⟩

/-- C8: in every change record of every entity kind, a key present on
both sides is never `Added` or `Removed` (it is `Identical` or
`Modified`), and a key present on one side only is never `Modified` or
`Identical` (it is `Added` for source-only, `Removed` for target-only) —
the content of `statusOfPresence`. -/
theorem C8_matched_unmatched_status (ords : DiffOrders)
    (source target : EnhancedDatabaseSchema) (a b : String) (c : SchemaComparison)
    (hc : compare_schemasWith ords source target a b = some c) :
    MatchedStatusFacts source target c := by
  obtain ⟨htds, hvds, hrds, -, -, -⟩ := compare_schemasWith_spec hc
  refine ⟨?_, ?_, ?_, ?_⟩
  · intro td htd
    exact (tableDiffAt_spec (compare_tablesWith_mem htds htd).2).2.1
  · intro td htd src hsrc tgt htgt
    obtain ⟨hcols, hidx, hfks, -⟩ :=
      (tableDiffAt_spec (compare_tablesWith_mem htds htd).2).2.2.1 src hsrc tgt htgt
    refine ⟨?_, ?_, ?_⟩
    · intro cc hcc
      exact (columnChangeAt_spec (compare_columnsWith_mem hcols hcc).2).2.2.2
    · intro ic hic
      exact (indexChangeAt_spec (compare_indexesWith_mem hidx hic).2).2.2.2
    · intro fc hfc
      exact (foreignKeyChangeAt_spec (compare_foreign_keysWith_mem hfks hfc).2).2.2.2
  · intro vc hvc
    exact (viewChangeAt_spec (compare_viewsWith_mem hvds hvc).2).2.2.2
  · intro rc hrc
    exact (routineChangeAt_spec (compare_routinesWith_mem hrds hrc).2).2.2.2

/-- C8 witness: the invariant at the concrete scenario schemas. -/
theorem C8_matched_unmatched_status_witness :
    compare_schemasWith (canonicalOrders c1src c1tgt) c1src c1tgt
      "source-db" "target-db" = some c1comp ∧
    MatchedStatusFacts c1src c1tgt c1comp :=
  ⟨by decide, C8_matched_unmatched_status (canonicalOrders c1src c1tgt) c1src c1tgt
    "source-db" "target-db" c1comp (by decide)⟩

/-- C9: under any enumeration of the key unions (which is what a
`HashSet` iteration yields), the comparator returns a result — the
`(None, None) => unreachable!()` arms are never taken — and the script
generator skips emission (produces no statement) rather than failing when
an optional definition it wants is absent. -/
theorem C9_total_no_panic (ords : DiffOrders)
    (source target : EnhancedDatabaseSchema) (a b : String)
    (hv : ValidOrders ords source target) :
    (∃ c, compare_schemasWith ords source target a b = some c) ∧
    (∀ (tname : String) (cc : ColumnChange), cc.status = DiffStatus.Added →
      cc.target_definition = none → columnSql tname cc = "") ∧
    (∀ ic : IndexChange, ic.status = DiffStatus.Added → ic.target_definition = none →
      indexSql ic = "") ∧
    (∀ fc : ForeignKeyChange, fc.status = DiffStatus.Removed →
      fc.source_definition = none → fkSql fc = "") ∧
    (∀ vc : ViewChange, vc.status = DiffStatus.Added → vc.target_definition = none →
      viewSql vc = "DROP VIEW IF EXISTS " ++ vc.view_name ++ ";\n\n") := by
  refine ⟨Option.isSome_iff_exists.mp (compare_schemasWith_total hv a b),
    ?_, ?_, ?_, ?_⟩
  · intro tname cc h1 h2
    simp [columnSql, h1, h2]
  · intro ic h1 h2
    simp [indexSql, h1, h2]
  · intro fc h1 h2
    simp [fkSql, h1, h2]
  · intro vc h1 h2
    simp [viewSql, h1, h2]

/-- C9 witness: totality at the concrete scenario schemas. -/
theorem C9_total_no_panic_witness :
    ValidOrders (canonicalOrders c1src c1tgt) c1src c1tgt ∧
    (∃ c, compare_schemasWith (canonicalOrders c1src c1tgt) c1src c1tgt
      "source-db" "target-db" = some c) :=
  ⟨validOrders_canonical _ _,
    (C9_total_no_panic _ _ _ "source-db" "target-db" (validOrders_canonical _ _)).1⟩

/-- C10: in every change record of every entity kind, `Added` carries a
source definition and no target definition, `Removed` carries a target
definition and no source definition, and `Modified`/`Identical` carry
both — the content of `defsOfStatus`. -/
theorem C10_defs_match_status (ords : DiffOrders)
    (source target : EnhancedDatabaseSchema) (a b : String) (c : SchemaComparison)
    (hc : compare_schemasWith ords source target a b = some c) :
    DefsStatusFacts c := by
  obtain ⟨htds, hvds, hrds, -, -, -⟩ := compare_schemasWith_spec hc
  have tdfact : ∀ td ∈ c.table_differences,
      tableDiffAt ords source.tables target.tables td.table_name = some td :=
    fun td htd => (compare_tablesWith_mem htds htd).2
  have tdcases : ∀ td ∈ c.table_differences,
      (∃ src, mapLookup (fun t => t.table_name) source.tables td.table_name = some src ∧
       ∃ tgt, mapLookup (fun t => t.table_name) target.tables td.table_name = some tgt) ∨
      (td.column_changes = [] ∧ td.index_changes = [] ∧ td.fk_changes = []) := by
    intro td htd
    have hat := tdfact td htd
    cases hs : mapLookup (fun t => t.table_name) source.tables td.table_name with
    | none =>
      cases ht : mapLookup (fun t => t.table_name) target.tables td.table_name with
      | none =>
        rcases tableDiffAt_lookup_isSome hat with h' | h'
        · rw [hs] at h'; simp at h'
        · rw [ht] at h'; simp at h'
      | some tgt =>
        exact Or.inr ((tableDiffAt_spec hat).2.2.2 (Or.inl hs))
    | some src =>
      cases ht : mapLookup (fun t => t.table_name) target.tables td.table_name with
      | none =>
        exact Or.inr ((tableDiffAt_spec hat).2.2.2 (Or.inr ht))
      | some tgt =>
        exact Or.inl ⟨src, rfl, tgt, rfl⟩
  refine ⟨?_, ?_, ?_, ?_, ?_⟩
  · intro td htd cc hcc
    rcases tdcases td htd with ⟨src, hs, tgt, ht⟩ | ⟨he, -, -⟩
    · obtain ⟨hcols, -, -, -⟩ := (tableDiffAt_spec (tdfact td htd)).2.2.1 src hs tgt ht
      obtain ⟨-, hatc⟩ := compare_columnsWith_mem hcols hcc
      obtain ⟨-, hsd, htd2, hsp⟩ := columnChangeAt_spec hatc
      rw [hsd, htd2]
      exact defsOfStatus_of hsp (columnChangeAt_lookup_isSome hatc)
    · rw [he] at hcc
      simp at hcc
  · intro td htd ic hic
    rcases tdcases td htd with ⟨src, hs, tgt, ht⟩ | ⟨-, he, -⟩
    · obtain ⟨-, hidx, -, -⟩ := (tableDiffAt_spec (tdfact td htd)).2.2.1 src hs tgt ht
      obtain ⟨-, hati⟩ := compare_indexesWith_mem hidx hic
      obtain ⟨-, hsd, htd2, hsp⟩ := indexChangeAt_spec hati
      rw [hsd, htd2]
      exact defsOfStatus_of hsp (indexChangeAt_lookup_isSome hati)
    · rw [he] at hic
      simp at hic
  · intro td htd fc hfc
    rcases tdcases td htd with ⟨src, hs, tgt, ht⟩ | ⟨-, -, he⟩
    · obtain ⟨-, -, hfks, -⟩ := (tableDiffAt_spec (tdfact td htd)).2.2.1 src hs tgt ht
      obtain ⟨-, hatf⟩ := compare_foreign_keysWith_mem hfks hfc
      obtain ⟨-, hsd, htd2, hsp⟩ := foreignKeyChangeAt_spec hatf
      rw [hsd, htd2]
      exact defsOfStatus_of hsp (foreignKeyChangeAt_lookup_isSome hatf)
    · rw [he] at hfc
      simp at hfc
  · intro vc hvc
    obtain ⟨-, hatv⟩ := compare_viewsWith_mem hvds hvc
    obtain ⟨-, hsd, htd2, hsp⟩ := viewChangeAt_spec hatv
    rw [hsd, htd2]
    exact defsOfStatus_map _ (defsOfStatus_of hsp (viewChangeAt_lookup_isSome hatv))
  · intro rc hrc
    obtain ⟨-, hatr⟩ := compare_routinesWith_mem hrds hrc
    obtain ⟨-, hsd, htd2, hsp⟩ := routineChangeAt_spec hatr
    rw [hsd, htd2]
    exact defsOfStatus_of hsp (routineChangeAt_lookup_isSome hatr)

/-- C10 witness: the invariant at the concrete scenario schemas. -/
theorem C10_defs_match_status_witness :
    compare_schemasWith (canonicalOrders c1src c1tgt) c1src c1tgt
      "source-db" "target-db" = some c1comp ∧
    DefsStatusFacts c1comp :=
  ⟨by decide, C10_defs_match_status (canonicalOrders c1src c1tgt) c1src c1tgt
    "source-db" "target-db" c1comp (by decide)⟩

/-- C5: each `Removed` table yields exactly one `High`/`data_loss`
warning naming the table; each `Removed` column exactly one
`High`/`data_loss` warning naming `table.column`; each `Modified` column
with a `type:` change descriptor exactly one `Medium`/`breaking_change`
warning naming `table.column`; nothing is emitted for `Added` entities or
for index, foreign-key, view, or routine changes. -/
theorem C5_warning_coverage (ords : DiffOrders)
    (source target : EnhancedDatabaseSchema) (a b : String) (c : SchemaComparison)
    (hc : compare_schemasWith ords source target a b = some c) :
    WarningFacts c := by
  obtain ⟨htds, -, -, hw, -, -⟩ := compare_schemasWith_spec hc
  refine ⟨?_, ?_, ?_, ?_, ?_⟩
  · rw [hw]
    rfl
  · intro td htd hst
    have hat := (compare_tablesWith_mem htds htd).2
    have hsp := (tableDiffAt_spec hat).2.1
    cases hs : mapLookup (fun t => t.table_name) source.tables td.table_name with
    | none =>
      cases ht : mapLookup (fun t => t.table_name) target.tables td.table_name with
      | none =>
        rcases tableDiffAt_lookup_isSome hat with h' | h'
        · rw [hs] at h'; simp at h'
        · rw [ht] at h'; simp at h'
      | some tgt =>
        have hempty := (tableDiffAt_spec hat).2.2.2 (Or.inl hs)
        simp [tableWarnings, hst, hempty.1]
    | some src =>
      cases ht : mapLookup (fun t => t.table_name) target.tables td.table_name with
      | none =>
        have := hsp.2.1 (by rw [hs]; rfl) ht
        rw [hst] at this
        simp at this
      | some tgt =>
        have := hsp.1 (by rw [hs]; rfl) (by rw [ht]; rfl)
        rw [hst] at this
        rcases this with h' | h' <;> simp at h'
  · intro td htd hst
    have hat := (compare_tablesWith_mem htds htd).2
    have hsp := (tableDiffAt_spec hat).2.1
    cases hs : mapLookup (fun t => t.table_name) source.tables td.table_name with
    | none =>
      cases ht : mapLookup (fun t => t.table_name) target.tables td.table_name with
      | none =>
        rcases tableDiffAt_lookup_isSome hat with h' | h'
        · rw [hs] at h'; simp at h'
        · rw [ht] at h'; simp at h'
      | some tgt =>
        have := hsp.2.2 hs (by rw [ht]; rfl)
        rw [hst] at this
        simp at this
    | some src =>
      cases ht : mapLookup (fun t => t.table_name) target.tables td.table_name with
      | none =>
        have hempty := (tableDiffAt_spec hat).2.2.2 (Or.inr ht)
        simp [tableWarnings, hst, hempty.1]
      | some tgt =>
        have := hsp.1 (by rw [hs]; rfl) (by rw [ht]; rfl)
        rw [hst] at this
        rcases this with h' | h' <;> simp at h'
  · intro td htd cc hcc
    refine ⟨?_, ?_, ?_, ?_⟩
    · intro hst
      simp [columnWarnings, hst]
    · intro hst
      constructor
      · intro hany
        simp [columnWarnings, hst, hany]
      · intro hany
        simp [columnWarnings, hst, hany]
    · intro hst
      simp [columnWarnings, hst]
    · intro hst
      simp [columnWarnings, hst]
  · intro v1 v2 r1 r2
    rfl

/-- C5 witness: the warning facts at the concrete scenario schemas. -/
theorem C5_warning_coverage_witness :
    compare_schemasWith (canonicalOrders c1src c1tgt) c1src c1tgt
      "source-db" "target-db" = some c1comp ∧
    WarningFacts c1comp :=
  ⟨by decide, C5_warning_coverage (canonicalOrders c1src c1tgt) c1src c1tgt
    "source-db" "target-db" c1comp (by decide)⟩

/-- C2 (amended): comparing a schema against itself yields every column,
index, foreign-key, view, and routine change record `Identical` and zero
warnings; but a table's status is `Modified` — not `Identical` — whenever
the table has any column, index, or foreign key, because its change lists
then hold the (all-`Identical`) per-entity records and `compare_tables`
marks a table `Modified` as soon as a change list is non-empty.  Only
when every table of the schema is empty does the script consist of the
header and the "No changes detected." footer. -/
theorem C2_self_comparison_amended (ords : DiffOrders) (S : EnhancedDatabaseSchema)
    (a b ts : String) (hv : ValidOrders ords S S) (c : SchemaComparison)
    (hc : compare_schemasWith ords S S a b = some c) :
    SelfCompFacts c ∧
    ((∀ t ∈ S.tables, t.columns = [] ∧ t.indexes = [] ∧ t.foreign_keys = []) →
      generate_migration_script c ts = scriptHeader a b ts ++ noChangesFooter) := by
  obtain ⟨htds, hvds, hrds, hw, ha, hb⟩ := compare_schemasWith_spec hc
  have tdfact : ∀ td ∈ c.table_differences,
      tableDiffAt ords S.tables S.tables td.table_name = some td :=
    fun td htd => (compare_tablesWith_mem htds htd).2
  have tables_fact : ∀ td ∈ c.table_differences,
      (∀ cc ∈ td.column_changes, cc.status = DiffStatus.Identical ∧ cc.changes = []) ∧
      (∀ ic ∈ td.index_changes, ic.status = DiffStatus.Identical) ∧
      (∀ fc ∈ td.fk_changes, fc.status = DiffStatus.Identical) ∧
      td.status = (if (!td.column_changes.isEmpty || !td.index_changes.isEmpty ||
        !td.fk_changes.isEmpty) = true then DiffStatus.Modified else DiffStatus.Identical) := by
    intro td htd
    have hat := tdfact td htd
    cases hs : mapLookup (fun t => t.table_name) S.tables td.table_name with
    | none =>
      rcases tableDiffAt_lookup_isSome hat with h' | h' <;> rw [hs] at h' <;> simp at h'
    | some s =>
      obtain ⟨hcols, hidx, hfks, hstatus⟩ := (tableDiffAt_spec hat).2.2.1 s hs s hs
      refine ⟨?_, ?_, ?_, hstatus⟩
      · intro cc hcc
        exact columnChangeAt_self (compare_columnsWith_mem hcols hcc).2
      · intro ic hic
        exact indexChangeAt_self (compare_indexesWith_mem hidx hic).2
      · intro fc hfc
        exact foreignKeyChangeAt_self (compare_foreign_keysWith_mem hfks hfc).2
  have views_fact : ∀ vc ∈ c.view_differences, vc.status = DiffStatus.Identical :=
    fun vc hvc => viewChangeAt_self (compare_viewsWith_mem hvds hvc).2
  have routines_fact : ∀ rc ∈ c.routine_differences, rc.status = DiffStatus.Identical :=
    fun rc hrc => routineChangeAt_self (compare_routinesWith_mem hrds hrc).2
  have warn_fact : c.warnings = [] := by
    rw [hw]
    show c.table_differences.flatMap tableWarnings = []
    refine flatMap_eq_nil_of_forall ?_
    intro td htd
    obtain ⟨hcols, -, -, hstatus⟩ := tables_fact td htd
    have hnr : ¬ td.status = DiffStatus.Removed := by
      rw [hstatus]
      split <;> simp
    unfold tableWarnings
    rw [if_neg hnr]
    simp only [List.nil_append]
    refine flatMap_eq_nil_of_forall ?_
    intro cc hcc
    obtain ⟨h1, -⟩ := hcols cc hcc
    simp [columnWarnings, h1]
  refine ⟨⟨tables_fact, views_fact, routines_fact, warn_fact⟩, ?_⟩
  intro hall
  have hids : ∀ td ∈ c.table_differences, td.status = DiffStatus.Identical := by
    intro td htd
    have hat := tdfact td htd
    have horder := (compare_tablesWith_mem htds htd).1
    cases hs : mapLookup (fun t => t.table_name) S.tables td.table_name with
    | none =>
      rcases tableDiffAt_lookup_isSome hat with h' | h' <;> rw [hs] at h' <;> simp at h'
    | some s =>
      obtain ⟨hc0, hi0, hf0⟩ := hall s (mapLookup_mem hs).1
      obtain ⟨hcols, hidx, hfks, hstatus⟩ := (tableDiffAt_spec hat).2.2.1 s hs s hs
      obtain ⟨hcp, hip, hfp⟩ := hv.2.1 td.table_name horder
      rw [colsOfTable_eq hs, hc0] at hcp
      rw [idxsOfTable_eq hs, hi0] at hip
      rw [fksOfTable_eq hs, hf0] at hfp
      have hcol_nil : ords.colOrder td.table_name = [] :=
        List.Perm.eq_nil (by simpa [unionKeys] using hcp)
      have hidx_nil : ords.idxOrder td.table_name = [] :=
        List.Perm.eq_nil (by simpa [unionKeys] using hip)
      have hfk_nil : ords.fkOrder td.table_name = [] :=
        List.Perm.eq_nil (by simpa [unionKeys] using hfp)
      have e1 : td.column_changes = [] := by
        have := compare_columnsWith_names hcols
        rw [hcol_nil] at this
        exact List.map_eq_nil_iff.mp this
      have e2 : td.index_changes = [] := by
        have := compare_indexesWith_names hidx
        rw [hidx_nil] at this
        exact List.map_eq_nil_iff.mp this
      have e3 : td.fk_changes = [] := by
        have := compare_foreign_keysWith_names hfks
        rw [hfk_nil] at this
        exact List.map_eq_nil_iff.mp this
      rw [hstatus, e1, e2, e3]
      simp
  have hmod : c.table_differences.filter (fun t => isModified t.status) = [] := by
    rw [List.filter_eq_nil_iff]
    intro td htd
    rw [hids td htd]
    simp [isModified]
  have hadd : c.table_differences.filter (fun t => isAdded t.status) = [] := by
    rw [List.filter_eq_nil_iff]
    intro td htd
    rw [hids td htd]
    simp [isAdded]
  have hrem : c.table_differences.filter (fun t => isRemoved t.status) = [] := by
    rw [List.filter_eq_nil_iff]
    intro td htd
    rw [hids td htd]
    simp [isRemoved]
  have hvw : c.view_differences.filter (fun v => !isIdentical v.status) = [] := by
    rw [List.filter_eq_nil_iff]
    intro vc hvc
    rw [views_fact vc hvc]
    simp [isIdentical]
  have hrt : c.routine_differences.filter (fun r => !isIdentical r.status) = [] := by
    rw [List.filter_eq_nil_iff]
    intro rc hrc
    rw [routines_fact rc hrc]
    simp [isIdentical]
  show generate_migration_script c ts = _
  simp only [generate_migration_script, hmod, hadd, hrem, hvw, hrt, List.isEmpty_nil,
    if_true, Bool.not_true, Bool.or_false, Bool.not_false, bne_self_eq_false,
    ite_true, ite_false]
  rw [ha, hb]
  simp only [String.append_empty, noChangesFooter]
  rw [String.append_assoc, String.append_assoc]
  rfl

/-- C2 counterexample: comparing the one-table one-column schema
`c2schema` against itself reports the table `Modified`, not `Identical`,
and the generated migration script does not contain the
"No changes detected." notice. -/
theorem C2_self_comparison_counterexample :
    compare_schemasWith (canonicalOrders c2schema c2schema) c2schema c2schema
      "conn" "conn" = some c2comp ∧
    c2comp.table_differences.map (fun td => td.status) = [DiffStatus.Modified] ∧
    c2comp.summary.tables_modified = 1 ∧
    containsSubstr (generate_migration_script c2comp "2024-01-01 00:00:00")
      "-- No changes detected." = false := by
  refine ⟨by decide, by decide, by decide, by decide⟩

/-- C2 witness: the amended facts at the one-table one-column schema. -/
theorem C2_self_comparison_amended_witness :
    ValidOrders (canonicalOrders c2schema c2schema) c2schema c2schema ∧
    compare_schemasWith (canonicalOrders c2schema c2schema) c2schema c2schema
      "conn" "conn" = some c2comp ∧
    SelfCompFacts c2comp :=
  ⟨validOrders_canonical _ _, by decide,
    (C2_self_comparison_amended (canonicalOrders c2schema c2schema) c2schema "conn" "conn"
      "2024-01-01 00:00:00" (validOrders_canonical _ _) c2comp (by decide)).1⟩

/-- C1: at the spec's concrete scenario the comparator reports exactly
what the claim says — table `users` `Modified`, column `name` `Modified`
with the single change `nullable: YES → NO`, column `email` `Removed`
with exactly one `High`/`data_loss` warning naming `users.email` — and
the script contains the commented `DROP COLUMN email`.  But for the
nullability change the script emits `DROP NOT NULL`, not the claimed
`SET NOT NULL`: `generate_migration_script` reads the *target* column's
`is_nullable` ("YES") where the source column ("NO") holds the state the
migration is supposed to establish. -/
theorem C1_concrete_scenario :
    compare_schemasWith (canonicalOrders c1src c1tgt) c1src c1tgt
      "source-db" "target-db" = some c1comp ∧
    c1comp.table_differences.map (fun td => td.status) = [DiffStatus.Modified] ∧
    c1comp.table_differences.map (fun td => td.column_changes.map
      (fun cc => (cc.column_name, cc.status, cc.changes))) =
      [[("id", DiffStatus.Identical, ([] : List String)),
        ("name", DiffStatus.Modified, ["nullable: YES → NO"]),
        ("email", DiffStatus.Removed, ([] : List String))]] ∧
    c1comp.warnings = [droppedColumnWarning "users" "email"] ∧
    containsSubstr c1script
      "-- WARNING: Dropping column will cause data loss!\nALTER TABLE users DROP COLUMN email;\n"
      = true ∧
    containsSubstr c1script "ALTER TABLE users ALTER COLUMN name DROP NOT NULL;" = true ∧
    containsSubstr c1script "SET NOT NULL" = false := by
  refine ⟨by decide, by decide, by decide, by decide, by decide, by decide, by decide⟩

/-- C3: a table present only in the source is classified `Added` with all
three change lists empty, so the `CREATE TABLE` assembled in the NEW
TABLES section has no column clause at all — the script contains
`CREATE TABLE t (\n\n);` and never mentions the table's column `mycol`,
contrary to the claimed one-clause-per-column `CREATE TABLE`. -/
theorem C3_added_table_create :
    compare_schemasWith (canonicalOrders c3src c3tgt) c3src c3tgt
      "source-db" "target-db" = some c3comp ∧
    c3comp.table_differences.map (fun td => (td.table_name, td.status)) =
      [("t", DiffStatus.Added)] ∧
    c3comp.table_differences.map (fun td => td.column_changes) = [[]] ∧
    c3comp.table_differences.map (fun td => td.index_changes) = [[]] ∧
    c3comp.table_differences.map (fun td => td.fk_changes) = [[]] ∧
    containsSubstr c3script "CREATE TABLE t (\n\n);" = true ∧
    containsSubstr c3script "mycol" = false := by
  refine ⟨by decide, by decide, by decide, by decide, by decide, by decide, by decide⟩

/-- C4: the comparator's output depends on the `HashSet` iteration order.
Both `["a", "b"]` and `["b", "a"]` are valid enumerations of the
table-name union of `c4schema` against itself, and the two runs produce
different `SchemaComparison` values (the table records appear in
different orders), so two runs are not guaranteed byte-identical. -/
theorem C4_order_dependence :
    ValidOrders c4ordsAB c4schema c4schema ∧
    ValidOrders c4ordsBA c4schema c4schema ∧
    compare_schemasWith c4ordsAB c4schema c4schema "s" "t" ≠
      compare_schemasWith c4ordsBA c4schema c4schema "s" "t" := by
  refine ⟨?_, ?_, ?_⟩
  · unfold ValidOrders
    decide
  · unfold ValidOrders
    decide
  · decide

/-- C7: for `Removed` views and routines the script is drop-only and for
`Modified` ones it is drop-then-recreate from the target definition, as
claimed; but for an `Added` view or routine the record's
`target_definition` is `None`, so the script emits only the `DROP` and no
`CREATE` — contrary to the claimed drop-followed-by-create for `Added`. -/
theorem C7_view_routine_recreation :
    compare_schemasWith (canonicalOrders c7src c7tgt) c7src c7tgt
      "source-db" "target-db" = some c7comp ∧
    c7comp.view_differences.map (fun vc => (vc.view_name, vc.status)) =
      [("v1", DiffStatus.Added), ("v2", DiffStatus.Modified), ("v3", DiffStatus.Removed)] ∧
    c7comp.routine_differences.map (fun rc => (rc.routine_name, rc.status)) =
      [("r1", DiffStatus.Added)] ∧
    containsSubstr c7script "DROP VIEW IF EXISTS v1;" = true ∧
    containsSubstr c7script "CREATE VIEW v1" = false ∧
    containsSubstr c7script "DROP VIEW IF EXISTS v2;\n\nCREATE VIEW v2 AS\nSELECT 3;" = true ∧
    containsSubstr c7script "DROP VIEW IF EXISTS v3;" = true ∧
    containsSubstr c7script "CREATE VIEW v3" = false ∧
    containsSubstr c7script "DROP FUNCTION IF EXISTS r1 CASCADE;" = true ∧
    containsSubstr c7script "CREATE FUNCTION r1" = false := by
  refine ⟨by decide, by decide, by decide, by decide, by decide, by decide, by decide,
    by decide, by decide, by decide⟩

end SchemaDiff
